import Mathlib

/-!
# Verification of the PyGMT wrapper layer

A shallow embedding of the argument-handling and module-invocation layer of
the PyGMT repository (`pygmt/helpers/decorators.py`, `pygmt/gridops.py`,
`pygmt/base_plotting.py`, `pygmt/src/binstats.py`, `pygmt/src/grdclip.py`,
`pygmt/src/grdpaste.py`), together with theorems settling the frozen claims
about that layer.

Python keyword-argument dictionaries are embedded as association lists with
insertion-order semantics (update-in-place on existing keys, append on new
keys, first-match lookup), matching CPython `dict` behaviour on the
duplicate-free dictionaries that `**kwargs` always produces.  Python objects
that only ever flow through `str(...)` and `numpy.datetime_as_string`
are embedded as a record of those two observations.  Side effects of the
grid-operation module bodies (temporary-file creation, session opening,
virtual-file creation, native module invocation, reading a grid file back)
are embedded as explicit event traces.
-/

set_option maxRecDepth 2000

namespace PyGMT

/-- Abstract model of a Python object appearing as an item of a sequence
argument.  The decorator code observes such an item only through `str(item)`
(field `strForm`) and through
`np.datetime_as_string(np.asarray(item, dtype=np.datetime64))`
(field `asDatetimeString`; `none` models the case where the numpy conversion
raises because the item is not datetime-like). -/
structure PyItem where
  strForm : String
  asDatetimeString : Option String
deriving DecidableEq, Repr

/-- Abstract model of a Python value bound to a keyword argument.  `seq`
models a non-string iterable (a list of items); `str`, `bool` and `pyNone`
model the values that the decorators treat specially. -/
inductive PyVal where
  | str (s : String)
  | bool (b : Bool)
  | pyNone
  | num (n : Int)
  | seq (items : List PyItem)
deriving DecidableEq, Repr

/-- A Python `**kwargs` dictionary: an association list with unique keys. -/
abbrev Kwargs := List (String × PyVal)

/-- First-match lookup, `kwargs.get(k)`. -/
def lookupKey : Kwargs → String → Option PyVal
  | [], _ => Option.none
  | p :: rest, k => if p.1 == k then some p.2 else lookupKey rest k

/-- `k in kwargs`. -/
def containsKey : Kwargs → String → Bool
  | [], _ => false
  | p :: rest, k => p.1 == k || containsKey rest k

/-- `kwargs.pop(k)` (the removal part): drop the entry with key `k`. -/
def eraseKey : Kwargs → String → Kwargs
  | [], _ => []
  | p :: rest, k => if p.1 == k then eraseKey rest k else p :: eraseKey rest k

/-- In-place replacement of the value stored under `k`. -/
def replaceKey : Kwargs → String → PyVal → Kwargs
  | [], _, _ => []
  | p :: rest, k, v =>
    if p.1 == k then (k, v) :: replaceKey rest k v else p :: replaceKey rest k v

/-- `kwargs[k] = v`: update in place when the key exists, append otherwise
(CPython dicts keep insertion order). -/
def setKey (kw : Kwargs) (k : String) (v : PyVal) : Kwargs :=
  if containsKey kw k then replaceKey kw k v
  else kw ++ [(k, v)]

theorem containsKey_append (a b : Kwargs) (k : String) :
    containsKey (a ++ b) k = (containsKey a k || containsKey b k) := by
  induction a with
  | nil => simp [containsKey]
  | cons p rest ih => simp [containsKey, ih, Bool.or_assoc]

theorem lookupKey_append_right (a : Kwargs) (b : Kwargs) (k : String)
    (h : containsKey a k = false) : lookupKey (a ++ b) k = lookupKey b k := by
  induction a with
  | nil => simp
  | cons p rest ih =>
    simp only [containsKey, Bool.or_eq_false_iff] at h
    simp [lookupKey, h.1, ih h.2]

theorem eraseKey_append (a b : Kwargs) (k : String) :
    eraseKey (a ++ b) k = eraseKey a k ++ eraseKey b k := by
  induction a with
  | nil => simp [eraseKey]
  | cons p rest ih =>
    by_cases h : p.1 = k
    · simp [eraseKey, h, ih]
    · simp [eraseKey, h, ih]

theorem eraseKey_of_not_contains (a : Kwargs) (k : String)
    (h : containsKey a k = false) : eraseKey a k = a := by
  induction a with
  | nil => rfl
  | cons p rest ih =>
    simp only [containsKey, Bool.or_eq_false_iff] at h
    simp only [eraseKey, h.1]
    simp [ih h.2, (by simpa using h.1 : ¬ p.1 = k)]

theorem setKey_of_not_contains (kw : Kwargs) (k : String) (v : PyVal)
    (h : containsKey kw k = false) : setKey kw k v = kw ++ [(k, v)] := by
  simp [setKey, h]

theorem containsKey_replaceKey (kw : Kwargs) (k n : String) (v : PyVal) :
    containsKey (replaceKey kw k v) n = containsKey kw n := by
  induction kw with
  | nil => rfl
  | cons p rest ih =>
    by_cases h : p.1 = k
    · simp [replaceKey, containsKey, h, ih]
    · simp [replaceKey, containsKey, h, ih]

theorem lookupKey_replaceKey_ne (kw : Kwargs) (k n : String) (v : PyVal)
    (hne : n ≠ k) : lookupKey (replaceKey kw k v) n = lookupKey kw n := by
  induction kw with
  | nil => rfl
  | cons p rest ih =>
    by_cases h : p.1 = k
    · have h1 : (k == n) = false := by simpa using fun hc => hne hc.symm
      have h2 : (p.1 == n) = false := by
        simpa [h] using fun hc => hne hc.symm
      simp [replaceKey, lookupKey, h, h1, h2, ih]
    · by_cases h2 : p.1 = n
      · simp [replaceKey, lookupKey, h, h2, hne]
      · simp [replaceKey, lookupKey, h, h2, ih]

theorem lookupKey_replaceKey_self (kw : Kwargs) (k : String) (v : PyVal)
    (h : containsKey kw k = true) : lookupKey (replaceKey kw k v) k = some v := by
  induction kw with
  | nil => simp [containsKey] at h
  | cons p rest ih =>
    by_cases hp : p.1 = k
    · simp [replaceKey, lookupKey, hp]
    · simp only [containsKey, Bool.or_eq_true, beq_iff_eq] at h
      rcases h with h | h
      · exact absurd h hp
      · simp [replaceKey, lookupKey, hp, ih h]

theorem containsKey_eraseKey_ne (kw : Kwargs) (k n : String) (hne : n ≠ k) :
    containsKey (eraseKey kw k) n = containsKey kw n := by
  induction kw with
  | nil => rfl
  | cons p rest ih =>
    by_cases h : p.1 = k
    · have h2 : (p.1 == n) = false := by
        simpa [h] using fun hc => hne hc.symm
      have h3 : (k == n) = false := by
        simpa using fun hc => hne hc.symm
      simp [eraseKey, h, containsKey, h2, h3, ih]
    · simp [eraseKey, h, containsKey, ih]

theorem containsKey_setKey_self (kw : Kwargs) (k : String) (v : PyVal) :
    containsKey (setKey kw k v) k = true := by
  unfold setKey
  by_cases h : containsKey kw k
  · rw [if_pos h, containsKey_replaceKey]
    exact h
  · rw [if_neg h, containsKey_append]
    simp [containsKey]

theorem containsKey_setKey_mono (kw : Kwargs) (k n : String) (v : PyVal)
    (h : containsKey kw n = true) : containsKey (setKey kw k v) n = true := by
  unfold setKey
  by_cases hc : containsKey kw k
  · rw [if_pos hc, containsKey_replaceKey]
    exact h
  · rw [if_neg hc, containsKey_append, h]
    rfl

theorem lookupKey_setKey_self (kw : Kwargs) (k : String) (v : PyVal) :
    lookupKey (setKey kw k v) k = some v := by
  unfold setKey
  by_cases h : containsKey kw k
  · rw [if_pos h]
    exact lookupKey_replaceKey_self kw k v h
  · rw [if_neg h, lookupKey_append_right _ _ _ (by simpa using h)]
    simp [lookupKey]

theorem lookupKey_append_single_ne (a : Kwargs) (k n : String) (v : PyVal)
    (hne : n ≠ k) : lookupKey (a ++ [(k, v)]) n = lookupKey a n := by
  induction a with
  | nil =>
    have h3 : (k == n) = false := by
      simpa using fun hc => hne hc.symm
    simp [lookupKey, h3]
  | cons p rest ih =>
    by_cases hpn : p.1 = n
    · simp [lookupKey, hpn]
    · simp [lookupKey, hpn, ih]

theorem lookupKey_setKey_ne (kw : Kwargs) (k n : String) (v : PyVal)
    (hne : n ≠ k) : lookupKey (setKey kw k v) n = lookupKey kw n := by
  unfold setKey
  by_cases h : containsKey kw k
  · rw [if_pos h]
    exact lookupKey_replaceKey_ne kw k n v hne
  · rw [if_neg h]
    exact lookupKey_append_single_ne kw k n v hne

theorem containsKey_of_lookupKey (kw : Kwargs) (k : String) (v : PyVal)
    (h : lookupKey kw k = some v) : containsKey kw k = true := by
  induction kw with
  | nil => simp [lookupKey] at h
  | cons p rest ih =>
    by_cases hp : p.1 = k
    · simp [containsKey, hp]
    · simp only [lookupKey, beq_iff_eq, hp, if_false] at h
      simp [containsKey, hp, ih h]

theorem lookupKey_isSome_of_contains (kw : Kwargs) (k : String)
    (h : containsKey kw k = true) : ∃ v, lookupKey kw k = some v := by
  induction kw with
  | nil => simp [containsKey] at h
  | cons p rest ih =>
    by_cases hp : p.1 = k
    · exact ⟨p.2, by simp [lookupKey, hp]⟩
    · have h' : containsKey rest k = true := by
        have hb : (p.1 == k) = false := by simpa using hp
        simpa [containsKey, hb] using h
      rcases ih h' with ⟨v, hv⟩
      exact ⟨v, by simp [lookupKey, hp, hv]⟩

theorem lookupKey_eq_none_of_not_contains (kw : Kwargs) (k : String)
    (h : containsKey kw k = false) : lookupKey kw k = Option.none := by
  induction kw with
  | nil => rfl
  | cons p rest ih =>
    simp only [containsKey, Bool.or_eq_false_iff] at h
    simp [lookupKey, h.1, ih h.2]

/-! ## Exceptions (`pygmt/exceptions.py`)

The wrapper-defined exception types that the embedded code can raise. -/

/-- The wrapper's own exception taxonomy, as raised by the embedded code
paths: `GMTInvalidInput` and `GMTTypeError` from `pygmt.exceptions`. -/
inductive PyExc where
  | GMTInvalidInput (msg : String)
  | GMTTypeError (msg : String)
deriving DecidableEq, Repr

/-! ## The `use_alias` decorator (`pygmt/helpers/decorators.py`, lines 505-628)

`use_alias(**aliases).alias_decorator(module_func).new_module` receives the
caller's `**kwargs`, rewrites registered long-form parameter names to their
short forms (warning on direct short-form use, rejecting coexisting forms and
the removed `U`/`timestamp`, `X`/`xshift`, `Y`/`yshift` parameters), and then
invokes `module_func` on the rewritten dictionary.  The embedding returns the
dictionary handed to `module_func` together with the list of warning messages
emitted, or the raised exception. -/

/-- `long_alias.endswith("-")`: the last character is a dash (stated over
the string's character list so that it evaluates inside the kernel). -/
def endsWithDash (s : String) : Bool := s.data.getLast? == some '-'

/-- `long_alias.rstrip("-")`: drop all trailing dashes. -/
def rstripDash (s : String) : String :=
  String.mk ((s.data.reverse.dropWhile (fun c => c == '-')).reverse)

/-- `s.split("/")` for the single-character separator `"/"` (CPython
semantics: `"".split("/") == [""]`, adjacent separators yield empty
fields). -/
def splitOnSlash (s : String) : List String :=
  (s.data.splitOn '/').map (fun cs => String.mk cs)

/-- The message of the coexisting short and long form `GMTInvalidInput`. -/
def coexistMsg (s l : String) : String :=
  s!"Parameters in short-form ({s}) and long-form ({l}) can't coexist."

/-- The message of the multi-long-form `GMTInvalidInput`. -/
def notRecognizedMsg (s l : String) : String :=
  s!"Short-form parameter ({s}) is not recognized. " ++
    s!"Use long-form parameter(s) '{l}' instead."

/-- The `SyntaxWarning` message emitted on direct short-form use. -/
def notRecommendedMsg (s l : String) : String :=
  s!"Short-form parameter ({s}) is not recommended. " ++
    s!"Use long-form parameter '{l}' instead."

/-- One iteration of the `for short_param, long_alias in aliases.items()`
loop of `new_module`: either raises, or returns the updated kwargs plus the
warnings this iteration emitted. -/
def aliasStep (kw : Kwargs) (p : String × String) :
    Except PyExc (Kwargs × List String) :=
  let shortParam := p.1
  let longAlias := p.2
  if endsWithDash longAlias then
    -- Trailing dash means it's not aliased but should be listed.
    let stripped := rstripDash longAlias
    let aliasList := splitOnSlash stripped
    if (aliasList.any (fun a => containsKey kw a)) && containsKey kw shortParam then
      .error (.GMTInvalidInput (coexistMsg shortParam stripped))
    else if containsKey kw shortParam then
      if aliasList.length > 1 then
        .error (.GMTInvalidInput (notRecognizedMsg shortParam stripped))
      else
        match lookupKey kw shortParam with
        | some v => .ok (setKey (eraseKey kw shortParam) stripped v, [])
        | Option.none => .ok (kw, [])
    else
      .ok (kw, [])
  else
    if containsKey kw longAlias && containsKey kw shortParam then
      .error (.GMTInvalidInput (coexistMsg shortParam longAlias))
    else if containsKey kw longAlias then
      match lookupKey kw longAlias with
      | some v => .ok (setKey (eraseKey kw longAlias) shortParam v, [])
      | Option.none => .ok (kw, [])
    else if containsKey kw shortParam then
      .ok (kw, [notRecommendedMsg shortParam longAlias])
    else
      .ok (kw, [])

/-- The whole alias-rewriting loop, accumulating warnings in emission
order. -/
def runAliases : List (String × String) → Kwargs →
    Except PyExc (Kwargs × List String)
  | [], kw => .ok (kw, [])
  | p :: rest, kw =>
    match aliasStep kw p with
    | .error e => .error e
    | .ok (kw1, ws) =>
      match runAliases rest kw1 with
      | .error e => .error e
      | .ok (kw2, ws') => .ok (kw2, ws ++ ws')

/-- The removed-parameter checks at the end of `new_module`
(decorators.py lines 596-618). -/
def removedParamsCheck (kw : Kwargs) : Except PyExc Unit :=
  if containsKey kw "U" || containsKey kw "timestamp" then
    .error (.GMTInvalidInput
      ("Parameters 'U' and 'timestamp' are no longer supported since v0.12.0. "
        ++ "Use Figure.timestamp() instead."))
  else if containsKey kw "X" || containsKey kw "xshift" then
    .error (.GMTInvalidInput
      ("Parameters 'X' and 'xshift' are no longer supported since v0.12.0. "
        ++ "Use Figure.shift_origin(xshift=...) instead."))
  else if containsKey kw "Y" || containsKey kw "yshift" then
    .error (.GMTInvalidInput
      ("Parameters 'Y' and 'yshift' are no longer supported since v0.12.0. "
        ++ "Use Figure.shift_origin(yshift=...) instead."))
  else
    .ok ()

/-- `new_module(**kwargs)` up to the invocation of the wrapped
`module_func`: on success it returns the kwargs dictionary that
`module_func` receives and the warnings emitted on the way. -/
def use_alias_run (aliases : List (String × String)) (kwargs : Kwargs) :
    Except PyExc (Kwargs × List String) :=
  match runAliases aliases kwargs with
  | .error e => .error e
  | .ok (kw, ws) =>
    match removedParamsCheck kw with
    | .error e => .error e
    | .ok _ => .ok (kw, ws)

instance exceptDecEq {e a : Type} [DecidableEq e] [DecidableEq a] :
    DecidableEq (Except e a)
  | .error x, .error y =>
    if h : x = y then .isTrue (congrArg Except.error h)
    else .isFalse (fun hc => h (Except.error.inj hc))
  | .error _, .ok _ => .isFalse (fun hc => Except.noConfusion hc)
  | .ok _, .error _ => .isFalse (fun hc => Except.noConfusion hc)
  | .ok x, .ok y =>
    if h : x = y then .isTrue (congrArg Except.ok h)
    else .isFalse (fun hc => h (Except.ok.inj hc))

/-- The alias names a pair occupies: the short flag plus either the single
long name, or the dash-stripped `/`-separated long names. -/
def aliasNames (p : String × String) : List String :=
  if endsWithDash p.2 then p.1 :: splitOnSlash (rstripDash p.2) else [p.1, p.2]

theorem aliasStep_inactive (kw : Kwargs) (p : String × String)
    (h : ∀ n ∈ aliasNames p, containsKey kw n = false) :
    aliasStep kw p = .ok (kw, []) := by
  unfold aliasStep aliasNames at *
  by_cases hd : endsWithDash p.2
  · simp only [hd, if_true] at h ⊢
    have hshort : containsKey kw p.1 = false := h p.1 (by simp)
    have hlist : (splitOnSlash (rstripDash p.2)).any (fun a => containsKey kw a) = false := by
      rw [List.any_eq_false]
      intro a ha
      simp [h a (by simp [ha])]
    simp [hshort, hlist]
  · simp only [hd, if_false] at h ⊢
    have h1 : containsKey kw p.1 = false := h p.1 (by simp)
    have h2 : containsKey kw p.2 = false := h p.2 (by simp)
    simp [h1, h2]

theorem runAliases_inactive (table : List (String × String)) (kw : Kwargs)
    (h : ∀ p ∈ table, ∀ n ∈ aliasNames p, containsKey kw n = false) :
    runAliases table kw = .ok (kw, []) := by
  induction table with
  | nil => rfl
  | cons p rest ih =>
    have h1 := aliasStep_inactive kw p (h p (by simp))
    have h2 := ih (fun q hq => h q (by simp [hq]))
    simp [runAliases, h1, h2]

/-! ## The `kwargs_to_strings` decorator (`pygmt/helpers/decorators.py`,
lines 631-790)

For each registered parameter bound to a non-string iterable, the decorator
first replaces every item whose `str()` form contains a space by
`np.datetime_as_string(np.asarray(item, dtype=np.datetime64))`, then joins
the `str()` forms of the items with the conversion's separator and passes
the resulting single string on.  The embedding works on the flattened
keyword dictionary (the `bound.arguments` vs. `bound.arguments["kwargs"]`
distinction of the source only decides where the same value is stored) and
models a conversion failure of a non-datetime item as `Option.none`. -/

/-- The two conversions registered with `kwargs_to_strings` in this
repository: `"sequence"` joins with `"/"`, `"sequence_comma"` with `","`. -/
inductive SeqFmt where
  | sequence
  | sequence_comma
deriving DecidableEq, Repr

/-- `separators = {"sequence": "/", "sequence_comma": ","}`. -/
def sepOf : SeqFmt → String
  | .sequence => "/"
  | .sequence_comma => ","

/-- Modelled from the spec: `is_nonstr_iter` lives in
`pygmt/helpers/utils.py`, which is absent from the sources.  Per the
decorator's docstring and doctests, it holds exactly for non-string
iterables: sequences convert, while strings, booleans and `None` pass
through untouched. -/
def is_nonstr_iter : PyVal → Bool
  | .seq _ => true
  | _ => false

/-- `" " in s`: the string has a space character (stated over the string's
character list so that it evaluates inside the kernel). -/
def strHasSpace (s : String) : Bool := s.data.any (fun c => c == ' ')

/-- The final string contributed by one item of a sequence: items whose
`str()` form contains a space are first replaced by their numpy datetime
string (raising, i.e. `Option.none`, when the item is not datetime-like);
all other items contribute `str(item)` unchanged. -/
def renderItem (it : PyItem) : Option String :=
  if strHasSpace it.strForm then it.asDatetimeString else some it.strForm

/-- The item-replacement loop over a sequence value, failing at the first
item whose numpy conversion raises. -/
def renderItems : List PyItem → Option (List String)
  | [] => some []
  | it :: rest =>
    match renderItem it, renderItems rest with
    | some y, some ys => some (y :: ys)
    | _, _ => Option.none

/-- The item loop plus the `separators[fmt].join(...)` call for one
sequence value. -/
def convertSeq (fmt : SeqFmt) (items : List PyItem) : Option String :=
  (renderItems items).map (fun l => String.intercalate (sepOf fmt) l)

/-- One iteration of the `for arg, fmt in conversions.items()` loop of
`kwargs_to_strings.converter.new_module`. -/
def convStep (kw : Kwargs) (c : String × SeqFmt) : Option Kwargs :=
  match lookupKey kw c.1 with
  | Option.none => some kw
  | some v =>
    match v with
    | .seq items =>
      match convertSeq c.2 items with
      | some s => some (setKey kw c.1 (.str s))
      | Option.none => Option.none
    | _ => some kw

/-- `kwargs_to_strings(**conversions)` applied to a call's arguments: the
keyword dictionary handed to the wrapped function, or `Option.none` when a
datetime conversion raised. -/
def kwargs_to_strings_run : List (String × SeqFmt) → Kwargs → Option Kwargs
  | [], kw => some kw
  | c :: rest, kw =>
    match convStep kw c with
    | some kw1 => kwargs_to_strings_run rest kw1
    | Option.none => Option.none

/-! ## Grid-operation module bodies

The module functions under scrutiny differ in how they move data in and out
of the native library; their observable interactions with the session and
the file system are recorded as an event trace. -/

/-- The grid argument of a module call, as the wrapper classifies it. -/
inductive GridInput where
  | file (fname : String)
  | grid
  | matrix
  | vectors
deriving DecidableEq, Repr

/-- Modelled from the spec: `data_kind` lives in `pygmt/helpers/utils.py`,
which is absent from the sources.  Per the spec's interface description
(file-path inputs vs. in-memory array inputs) it classifies a file name
string as `"file"`, an `xarray.DataArray` as `"grid"`, and in-memory tabular
arrays as `"matrix"`/`"vectors"`. -/
def data_kind : GridInput → String
  | .file _ => "file"
  | .grid => "grid"
  | .matrix => "matrix"
  | .vectors => "vectors"

/-- `str(type(x))` for the embedded inputs, as interpolated into the
`"Unrecognized data type: {}"` message. -/
def pyTypeName : GridInput → String
  | .file _ => "<class 'str'>"
  | .grid => "<class 'xarray.core.dataarray.DataArray'>"
  | .matrix => "<class 'numpy.ndarray'>"
  | .vectors => "<class 'list'>"

/-- Observable actions of a module body.  `createTempFile` and
`openDataArray` are the wrapper's own file-system accesses
(`GMTTempFile(...)` and `xr.open_dataarray(...)`); the virtual-file events
and `callModule` are native-library interactions that do not touch the file
system on the wrapper's side. -/
inductive Event where
  | createTempFile (fname : String)
  | openSession
  | virtualfileFromGrid
  | virtualfileIn
  | virtualfileOut (fname : Option String)
  | callModule (modname : String) (infiles : List String) (kwargs : Kwargs)
  | openDataArray (fname : String)
deriving DecidableEq, Repr

/-- The value a grid-producing module call returns on success: `some` an
`xarray.DataArray` (loaded from a file or read out of a virtual file), or
Python `None`. -/
inductive GridOutput where
  | dataArrayFromFile (fname : String)
  | dataArrayFromVirtual (vfname : String)
deriving DecidableEq, Repr

/-- A module body's outcome: its event trace plus its returned value or
raised exception. -/
structure ModResult where
  trace : List Event
  result : Except PyExc (Option GridOutput)
deriving Repr

/-- `true` on the events by which the wrapper itself creates or reads a file
on the file system. -/
def isWrapperFileEvent : Event → Bool
  | .createTempFile _ => true
  | .openDataArray _ => true
  | _ => false

/-- The wrapper itself created or read a file during the call. -/
def touchesDisk (tr : List Event) : Bool := tr.any isWrapperFileEvent

/-- The native module was invoked during the call. -/
def invokesModule (tr : List Event) : Bool :=
  tr.any (fun e => match e with | .callModule _ _ _ => true | _ => false)

/-- The placeholder name a session-generated virtual file gets in the
embedding (its actual name is irrelevant to every claim). -/
def vfilePlaceholder : String := "<virtualfile>"

/-- The name handed to the module as its input: the file name itself for a
`"file"` input (`dummy_context`), the virtual file for a `"grid"` input
(`virtualfile_from_grid`). -/
def infileOf (g : GridInput) : String :=
  match g with
  | .file f => f
  | _ => vfilePlaceholder

/-- `pygmt/gridops.py`, lines 91-116 (`grdcut`) and 231-256 (`grdfilter`):
the shared body shape of the two old-style grid operations, parametrised by
the module name.  A `GMTTempFile` is always entered; the input goes through
`dummy_context` (a file name) or `virtualfile_from_grid`; unrecognized
kinds raise `GMTInvalidInput`; when `G` is unset the module writes to the
temporary file, which is then read back with `xr.open_dataarray`. -/
def tempfile_grid_body (modname : String) (grid : GridInput) (kwargs : Kwargs)
    (tmpname : String) : ModResult :=
  let kind := data_kind grid
  let pre := [Event.createTempFile tmpname, Event.openSession]
  if kind ≠ "file" ∧ kind ≠ "grid" then
    { trace := pre
      result := .error (.GMTInvalidInput
        ("Unrecognized data type: " ++ pyTypeName grid)) }
  else
    let inEvents := if kind == "grid" then [Event.virtualfileFromGrid] else []
    let infile := infileOf grid
    let kwargs1 :=
      if containsKey kwargs "G" then kwargs else setKey kwargs "G" (.str tmpname)
    let outgrid := (lookupKey kwargs1 "G").getD (.str tmpname)
    let callEv := Event.callModule modname [infile] kwargs1
    if outgrid == PyVal.str tmpname then
      { trace := pre ++ inEvents ++ [callEv, Event.openDataArray tmpname]
        result := .ok (some (.dataArrayFromFile tmpname)) }
    else
      { trace := pre ++ inEvents ++ [callEv]
        result := .ok Option.none }

/-- `pygmt.grdcut` (gridops.py lines 91-116), after alias handling. -/
def grdcut_body (grid : GridInput) (kwargs : Kwargs) (tmpname : String) :
    ModResult :=
  tempfile_grid_body "grdcut" grid kwargs tmpname

/-- `pygmt.grdfilter` (gridops.py lines 231-256), after alias handling. -/
def grdfilter_body (grid : GridInput) (kwargs : Kwargs) (tmpname : String) :
    ModResult :=
  tempfile_grid_body "grdfilter" grid kwargs tmpname

/-- `base_plotting.py`, lines 419-430 (`grdcontour`) and 575-586
(`grdimage`): the shared body shape of the two grid plotting methods.  No
temporary file and no output handling; unrecognized grid kinds raise
`GMTInvalidInput` inside the open session. -/
def plot_grid_body (modname : String) (grid : GridInput) (kwargs : Kwargs) :
    ModResult :=
  let kind := data_kind grid
  if kind ≠ "file" ∧ kind ≠ "grid" then
    { trace := [Event.openSession]
      result := .error (.GMTInvalidInput
        ("Unrecognized data type: " ++ pyTypeName grid)) }
  else
    let inEvents := if kind == "grid" then [Event.virtualfileFromGrid] else []
    let infile := infileOf grid
    { trace := [Event.openSession] ++ inEvents
        ++ [Event.callModule modname [infile] kwargs]
      result := .ok Option.none }

/-- `BasePlotting.grdcontour` (base_plotting.py lines 419-430), after alias
handling. -/
def grdcontour_body (grid : GridInput) (kwargs : Kwargs) : ModResult :=
  plot_grid_body "grdcontour" grid kwargs

/-- `BasePlotting.grdimage` (base_plotting.py lines 575-586), after alias
handling. -/
def grdimage_body (grid : GridInput) (kwargs : Kwargs) : ModResult :=
  plot_grid_body "grdimage" grid kwargs

/-- Modelled from the spec: `Session.virtualfile_out` lives in
`pygmt/clib/session.py`, which is absent from the sources.  With an output
file name it yields that name for the module to write to directly; without
one it yields a session-generated virtual file, the native mechanism for
receiving in-memory output without touching disk. -/
def virtualfile_out_name (outgrid : Option String) (vname : String) : String :=
  match outgrid with
  | some f => f
  | Option.none => vname

/-- Modelled from the spec: `Session.virtualfile_to_raster` lives in
`pygmt/clib/session.py`, which is absent from the sources.  It marshals the
result back into a high-level grid object: with an output file name set it
returns `None` (the module already wrote the file); otherwise it reads the
virtual file into an `xarray.DataArray`. -/
def virtualfile_to_raster (vfname : String) (outgrid : Option String) :
    Option GridOutput :=
  match outgrid with
  | some _ => Option.none
  | Option.none => some (.dataArrayFromVirtual vfname)

/-- `pygmt.binstats` (src/binstats.py lines 107-116), after alias handling:
tabular input through `virtualfile_in`, output through `virtualfile_out`
and `virtualfile_to_raster`. -/
def binstats_body (data : GridInput) (outgrid : Option String)
    (kwargs : Kwargs) : ModResult :=
  let voutgrd := virtualfile_out_name outgrid vfilePlaceholder
  let kwargs1 := setKey kwargs "G" (.str voutgrd)
  { trace := [Event.openSession, Event.virtualfileIn,
      Event.virtualfileOut outgrid,
      Event.callModule "binstats" [vfilePlaceholder] kwargs1]
    result := .ok (virtualfile_to_raster voutgrd outgrid) }

/-- `pygmt.grdclip` (src/grdclip.py lines 99-108), after alias handling. -/
def grdclip_body (grid : GridInput) (outgrid : Option String)
    (kwargs : Kwargs) : ModResult :=
  let voutgrd := virtualfile_out_name outgrid vfilePlaceholder
  let kwargs1 := setKey kwargs "G" (.str voutgrd)
  { trace := [Event.openSession, Event.virtualfileIn,
      Event.virtualfileOut outgrid,
      Event.callModule "grdclip" [vfilePlaceholder] kwargs1]
    result := .ok (virtualfile_to_raster voutgrd outgrid) }

/-- The `reason` of the `GMTTypeError` raised by `grdpaste` on mixed input
kinds (src/grdpaste.py lines 70-74). -/
def grdpasteMixedKindsReason : String :=
  "Both input grids must be of the same type (file or xarray.DataArray)."

/-- `pygmt.grdpaste` (src/grdpaste.py lines 69-90): the same-kind check
runs before any session is opened; then both inputs go through
`virtualfile_in` and the output through `virtualfile_out` and
`virtualfile_to_raster`. -/
def grdpaste_body (grid1 grid2 : GridInput) (outgrid : Option String)
    (kwargs : Kwargs) : ModResult :=
  if data_kind grid1 ≠ data_kind grid2 then
    { trace := [], result := .error (.GMTTypeError grdpasteMixedKindsReason) }
  else
    let voutgrd := virtualfile_out_name outgrid vfilePlaceholder
    let kwargs1 := setKey kwargs "G" (.str voutgrd)
    { trace := [Event.openSession, Event.virtualfileIn, Event.virtualfileIn,
        Event.virtualfileOut outgrid,
        Event.callModule "grdpaste" [vfilePlaceholder, vfilePlaceholder] kwargs1]
      result := .ok (virtualfile_to_raster voutgrd outgrid) }

/-! ## Behaviour lemmas for the module bodies -/

/-- `grdcut`/`grdfilter` with a recognized input and `outgrid` unset: the
module writes to the temporary file, which is read back into a
`DataArray`. -/
theorem tempfile_grid_body_unset (modname : String) (g : GridInput)
    (kwargs : Kwargs) (tmp : String)
    (hk : data_kind g = "file" ∨ data_kind g = "grid")
    (hG : containsKey kwargs "G" = false) :
    tempfile_grid_body modname g kwargs tmp =
      { trace := [Event.createTempFile tmp, Event.openSession]
          ++ (if data_kind g == "grid" then [Event.virtualfileFromGrid] else [])
          ++ [Event.callModule modname [infileOf g]
                (setKey kwargs "G" (.str tmp)),
              Event.openDataArray tmp]
        result := .ok (some (.dataArrayFromFile tmp)) } := by
  have hcond : ¬(data_kind g ≠ "file" ∧ data_kind g ≠ "grid") := by
    rcases hk with h | h <;> simp [h]
  unfold tempfile_grid_body
  rw [if_neg hcond]
  simp only [hG, Bool.false_eq_true, if_false, lookupKey_setKey_self,
    Option.getD_some, beq_self_eq_true, if_true]

/-- `grdcut`/`grdfilter` with a recognized input and `outgrid` set to a file
name different from the temporary file: returns `None`, with the module
told to write to that file. -/
theorem tempfile_grid_body_set (modname : String) (g : GridInput)
    (kwargs : Kwargs) (tmp f : String)
    (hk : data_kind g = "file" ∨ data_kind g = "grid")
    (hG : lookupKey kwargs "G" = some (.str f)) (hne : f ≠ tmp) :
    tempfile_grid_body modname g kwargs tmp =
      { trace := [Event.createTempFile tmp, Event.openSession]
          ++ (if data_kind g == "grid" then [Event.virtualfileFromGrid] else [])
          ++ [Event.callModule modname [infileOf g] kwargs]
        result := .ok Option.none } := by
  have hcond : ¬(data_kind g ≠ "file" ∧ data_kind g ≠ "grid") := by
    rcases hk with h | h <;> simp [h]
  have hcont : containsKey kwargs "G" = true := containsKey_of_lookupKey _ _ _ hG
  have hbeq : (PyVal.str f == PyVal.str tmp) = false := by
    simpa using hne
  unfold tempfile_grid_body
  rw [if_neg hcond]
  simp only [hcont, if_true, hG, Option.getD_some, hbeq, Bool.false_eq_true,
    if_false]

/-! ## Claim C10 -/

/-- **C10.** For every call of `grdpaste` where `data_kind(grid1)` differs
from `data_kind(grid2)`, `grdpaste` raises `GMTTypeError` before any
session is opened and before any native module is invoked: the event trace
is empty. -/
theorem grdpaste_mixed_kinds_raises_early (g1 g2 : GridInput)
    (outgrid : Option String) (kwargs : Kwargs)
    (h : data_kind g1 ≠ data_kind g2) :
    (grdpaste_body g1 g2 outgrid kwargs).trace = [] ∧
    (grdpaste_body g1 g2 outgrid kwargs).result =
      .error (.GMTTypeError grdpasteMixedKindsReason) := by
  unfold grdpaste_body
  rw [if_pos h]
  exact ⟨rfl, rfl⟩

/-- Witness for C10: a file-name grid pasted with an in-memory
`xarray.DataArray`. -/
theorem grdpaste_mixed_kinds_raises_early_witness :
    (grdpaste_body (.file "a.nc") .grid Option.none []).trace = [] ∧
    (grdpaste_body (.file "a.nc") .grid Option.none []).result =
      .error (.GMTTypeError grdpasteMixedKindsReason) :=
  grdpaste_mixed_kinds_raises_early (.file "a.nc") .grid Option.none []
    (by decide)

/-! ## Claim C7 -/

/-- **C7.** For every call of `grdcut` or `grdfilter` (and of the grid
plotting methods `grdcontour` and `grdimage`) whose grid argument is
neither a file-name string nor an in-memory grid object, the operation
raises `GMTInvalidInput` naming the unrecognized type, and the native
module is never invoked. -/
theorem unrecognized_grid_type_raises (g : GridInput) (kwargs : Kwargs)
    (tmp : String)
    (hf : data_kind g ≠ "file") (hg : data_kind g ≠ "grid") :
    ((grdcut_body g kwargs tmp).result =
        .error (.GMTInvalidInput ("Unrecognized data type: " ++ pyTypeName g)) ∧
      invokesModule (grdcut_body g kwargs tmp).trace = false) ∧
    ((grdfilter_body g kwargs tmp).result =
        .error (.GMTInvalidInput ("Unrecognized data type: " ++ pyTypeName g)) ∧
      invokesModule (grdfilter_body g kwargs tmp).trace = false) ∧
    ((grdcontour_body g kwargs).result =
        .error (.GMTInvalidInput ("Unrecognized data type: " ++ pyTypeName g)) ∧
      invokesModule (grdcontour_body g kwargs).trace = false) ∧
    ((grdimage_body g kwargs).result =
        .error (.GMTInvalidInput ("Unrecognized data type: " ++ pyTypeName g)) ∧
      invokesModule (grdimage_body g kwargs).trace = false) := by
  have hcond : data_kind g ≠ "file" ∧ data_kind g ≠ "grid" := ⟨hf, hg⟩
  unfold grdcut_body grdfilter_body grdcontour_body grdimage_body
    tempfile_grid_body plot_grid_body
  rw [if_pos hcond, if_pos hcond, if_pos hcond, if_pos hcond]
  exact ⟨⟨rfl, rfl⟩, ⟨rfl, rfl⟩, ⟨rfl, rfl⟩, ⟨rfl, rfl⟩⟩

/-- Witness for C7: a 2-D numpy array handed to the grid parameter. -/
theorem unrecognized_grid_type_raises_witness :
    ((grdcut_body .matrix [] "tmp7.nc").result =
        .error (.GMTInvalidInput
          ("Unrecognized data type: " ++ pyTypeName .matrix)) ∧
      invokesModule (grdcut_body .matrix [] "tmp7.nc").trace = false) ∧
    ((grdfilter_body .matrix [] "tmp7.nc").result =
        .error (.GMTInvalidInput
          ("Unrecognized data type: " ++ pyTypeName .matrix)) ∧
      invokesModule (grdfilter_body .matrix [] "tmp7.nc").trace = false) ∧
    ((grdcontour_body .matrix []).result =
        .error (.GMTInvalidInput
          ("Unrecognized data type: " ++ pyTypeName .matrix)) ∧
      invokesModule (grdcontour_body .matrix []).trace = false) ∧
    ((grdimage_body .matrix []).result =
        .error (.GMTInvalidInput
          ("Unrecognized data type: " ++ pyTypeName .matrix)) ∧
      invokesModule (grdimage_body .matrix []).trace = false) :=
  unrecognized_grid_type_raises .matrix [] "tmp7.nc" (by decide) (by decide)

/-! ## Claim C1 -/

/-- **Counterexample to C1.**  The spec claims every exception the wrapper
raises surfaces a native-library return code.  But `grdcut` on an
unrecognized input type raises `GMTInvalidInput` — an exception type defined
by the wrapper itself in `pygmt/exceptions.py` — while the native module is
never invoked at all, so no native return code is involved. -/
theorem wrapper_raises_own_exception_without_native_call :
    (grdcut_body .matrix [] "t1.nc").result =
      .error (.GMTInvalidInput
        "Unrecognized data type: <class 'numpy.ndarray'>") ∧
    invokesModule (grdcut_body .matrix [] "t1.nc").trace = false := by
  exact ⟨rfl, rfl⟩

/-- **C1 (amended).**  The wrapper defines its own exception taxonomy
(`GMTInvalidInput`, `GMTTypeError`) and raises it for input-validation
failures before the native module is ever invoked; native-library error
codes are surfaced as exceptions in addition to these wrapper-defined
checks.  Formally: every exception the embedded `grdcut` body raises is a
wrapper-defined `GMTInvalidInput` raised without a native invocation, and
every exception the embedded `grdpaste` body raises is a wrapper-defined
`GMTTypeError` raised before anything else happens. -/
theorem wrapper_exceptions_are_prevalidation (g g1 g2 : GridInput)
    (kwargs : Kwargs) (tmp : String) (outgrid : Option String) (e : PyExc) :
    ((grdcut_body g kwargs tmp).result = .error e →
      invokesModule (grdcut_body g kwargs tmp).trace = false ∧
      ∃ m, e = .GMTInvalidInput m) ∧
    ((grdpaste_body g1 g2 outgrid kwargs).result = .error e →
      (grdpaste_body g1 g2 outgrid kwargs).trace = [] ∧
      e = .GMTTypeError grdpasteMixedKindsReason) := by
  constructor
  · intro herr
    by_cases hcond : data_kind g ≠ "file" ∧ data_kind g ≠ "grid"
    · unfold grdcut_body tempfile_grid_body at herr ⊢
      rw [if_pos hcond] at herr ⊢
      refine ⟨rfl, ?_⟩
      simp only [Except.error.injEq] at herr
      exact ⟨_, herr.symm⟩
    · exfalso
      unfold grdcut_body tempfile_grid_body at herr
      rw [if_neg hcond] at herr
      by_cases hout :
          ((lookupKey (if containsKey kwargs "G" then kwargs
              else setKey kwargs "G" (.str tmp)) "G").getD (.str tmp)
            == PyVal.str tmp) = true
      · simp only [hout, if_true] at herr
        exact Except.noConfusion herr
      · simp only [hout, Bool.false_eq_true, if_false] at herr
        · exact Except.noConfusion herr
  · intro herr
    by_cases hk : data_kind g1 ≠ data_kind g2
    · unfold grdpaste_body at herr ⊢
      rw [if_pos hk] at herr ⊢
      simp only [Except.error.injEq] at herr
      exact ⟨rfl, herr.symm⟩
    · exfalso
      unfold grdpaste_body at herr
      rw [if_neg hk] at herr
      exact Except.noConfusion herr

/-- Witness for the amended C1, at the inputs of the counterexample and of
the C10 configuration. -/
theorem wrapper_exceptions_are_prevalidation_witness :
    invokesModule (grdcut_body .matrix [] "t1b.nc").trace = false ∧
    ∃ m, PyExc.GMTInvalidInput
        "Unrecognized data type: <class 'numpy.ndarray'>" =
      .GMTInvalidInput m :=
  (wrapper_exceptions_are_prevalidation .matrix (.file "a.nc") .grid []
    "t1b.nc" Option.none
    (.GMTInvalidInput "Unrecognized data type: <class 'numpy.ndarray'>")).1
    rfl

/-! ## Claim C2 -/

/-- **Counterexample to C2.**  The spec claims that with in-memory input
and no output file name the data passes through virtual files without the
wrapper touching disk.  But `grdcut` on an in-memory grid with `outgrid`
unset enters `GMTTempFile`, which creates a temporary file on disk, and
reads the result back from it with `xr.open_dataarray`. -/
theorem grdcut_inmemory_unset_touches_disk :
    touchesDisk (grdcut_body .grid [] "pygmt-tmp.nc").trace = true ∧
    Event.createTempFile "pygmt-tmp.nc" ∈
      (grdcut_body .grid [] "pygmt-tmp.nc").trace ∧
    Event.openDataArray "pygmt-tmp.nc" ∈
      (grdcut_body .grid [] "pygmt-tmp.nc").trace := by
  refine ⟨rfl, ?_, ?_⟩ <;> decide

/-- **C2 (amended).**  The virtual-file property holds for the module
bodies built on `virtualfile_in`/`virtualfile_out` (`binstats`, `grdclip`,
`grdpaste`): with in-memory input and no output file name the wrapper
creates and reads no file.  `grdcut` and `grdfilter` instead always create
a wrapper-side temporary file and, when `outgrid` is unset, read the result
back from it. -/
theorem virtualfile_modules_touch_no_disk (kwargs : Kwargs)
    (data g1 g2 : GridInput) (tmp : String)
    (hsame : data_kind g1 = data_kind g2)
    (hG : containsKey kwargs "G" = false) :
    touchesDisk (binstats_body data Option.none kwargs).trace = false ∧
    touchesDisk (grdclip_body .grid Option.none kwargs).trace = false ∧
    touchesDisk (grdpaste_body g1 g2 Option.none kwargs).trace = false ∧
    Event.createTempFile tmp ∈ (grdcut_body .grid kwargs tmp).trace ∧
    Event.openDataArray tmp ∈ (grdcut_body .grid kwargs tmp).trace ∧
    Event.createTempFile tmp ∈ (grdfilter_body .grid kwargs tmp).trace ∧
    Event.openDataArray tmp ∈ (grdfilter_body .grid kwargs tmp).trace := by
  have hcut := tempfile_grid_body_unset "grdcut" .grid kwargs tmp
    (Or.inr rfl) hG
  have hfil := tempfile_grid_body_unset "grdfilter" .grid kwargs tmp
    (Or.inr rfl) hG
  refine ⟨rfl, rfl, ?_, ?_, ?_, ?_, ?_⟩
  · unfold grdpaste_body
    rw [if_neg (by simp [hsame])]
    rfl
  · rw [grdcut_body, hcut]
    simp
  · rw [grdcut_body, hcut]
    simp
  · rw [grdfilter_body, hfil]
    simp
  · rw [grdfilter_body, hfil]
    simp

/-- Witness for the amended C2. -/
theorem virtualfile_modules_touch_no_disk_witness :
    touchesDisk (binstats_body .matrix Option.none []).trace = false ∧
    touchesDisk (grdclip_body .grid Option.none []).trace = false ∧
    touchesDisk (grdpaste_body .grid .grid Option.none []).trace = false ∧
    Event.createTempFile "t2.nc" ∈ (grdcut_body .grid [] "t2.nc").trace ∧
    Event.openDataArray "t2.nc" ∈ (grdcut_body .grid [] "t2.nc").trace ∧
    Event.createTempFile "t2.nc" ∈ (grdfilter_body .grid [] "t2.nc").trace ∧
    Event.openDataArray "t2.nc" ∈ (grdfilter_body .grid [] "t2.nc").trace :=
  virtualfile_modules_touch_no_disk [] .matrix .grid .grid "t2.nc" rfl rfl

/-! ## Claim C3 -/

/-- The call returned a loaded `xarray.DataArray`. -/
def returnsDataArray (r : ModResult) : Prop :=
  ∃ g, r.result = .ok (some g)

/-- The call returned `None` and the native module was told to store the
result grid in the file `f` (its `G` argument). -/
def storesToFile (r : ModResult) (f : String) : Prop :=
  r.result = .ok Option.none ∧
  ∃ m ins kw, Event.callModule m ins kw ∈ r.trace ∧
    lookupKey kw "G" = some (.str f)

/-- **C3.**  For every call of `grdcut`, `grdfilter`, `binstats`, `grdclip`
or `grdpaste` that completes without error: if `outgrid` is unset the call
returns an `xarray.DataArray` holding the result grid, and if `outgrid` is
set to a file name the call returns `None` and the result grid is stored in
that file. -/
theorem grid_modules_outgrid_return_contract (g data g1 g2 : GridInput)
    (kwU kwS : Kwargs) (tmp f : String)
    (hk : data_kind g = "file" ∨ data_kind g = "grid")
    (hsame : data_kind g1 = data_kind g2)
    (hunset : containsKey kwU "G" = false)
    (hset : lookupKey kwS "G" = some (.str f))
    (hne : f ≠ tmp) :
    (returnsDataArray (grdcut_body g kwU tmp) ∧
      returnsDataArray (grdfilter_body g kwU tmp) ∧
      returnsDataArray (binstats_body data Option.none kwU) ∧
      returnsDataArray (grdclip_body g Option.none kwU) ∧
      returnsDataArray (grdpaste_body g1 g2 Option.none kwU)) ∧
    (storesToFile (grdcut_body g kwS tmp) f ∧
      storesToFile (grdfilter_body g kwS tmp) f ∧
      storesToFile (binstats_body data (some f) kwS) f ∧
      storesToFile (grdclip_body g (some f) kwS) f ∧
      storesToFile (grdpaste_body g1 g2 (some f) kwS) f) := by
  have hpaste : ¬ data_kind g1 ≠ data_kind g2 := by simp [hsame]
  constructor
  · refine ⟨?_, ?_, ⟨_, rfl⟩, ⟨_, rfl⟩, ?_⟩
    · rw [grdcut_body, tempfile_grid_body_unset "grdcut" g kwU tmp hk hunset]
      exact ⟨_, rfl⟩
    · rw [grdfilter_body,
        tempfile_grid_body_unset "grdfilter" g kwU tmp hk hunset]
      exact ⟨_, rfl⟩
    · unfold grdpaste_body
      rw [if_neg hpaste]
      exact ⟨_, rfl⟩
  · refine ⟨?_, ?_, ?_, ?_, ?_⟩
    · rw [grdcut_body, tempfile_grid_body_set "grdcut" g kwS tmp f hk hset hne]
      exact ⟨rfl, "grdcut", [infileOf g], kwS, by simp, hset⟩
    · rw [grdfilter_body,
        tempfile_grid_body_set "grdfilter" g kwS tmp f hk hset hne]
      exact ⟨rfl, "grdfilter", [infileOf g], kwS, by simp, hset⟩
    · exact ⟨rfl, "binstats", [vfilePlaceholder], setKey kwS "G" (.str f),
        by simp [binstats_body, virtualfile_out_name],
        lookupKey_setKey_self kwS "G" (.str f)⟩
    · exact ⟨rfl, "grdclip", [vfilePlaceholder], setKey kwS "G" (.str f),
        by simp [grdclip_body, virtualfile_out_name],
        lookupKey_setKey_self kwS "G" (.str f)⟩
    · refine ⟨?_, "grdpaste", [vfilePlaceholder, vfilePlaceholder],
        setKey kwS "G" (.str f), ?_,
        lookupKey_setKey_self kwS "G" (.str f)⟩
      · unfold grdpaste_body
        rw [if_neg hpaste]
        rfl
      · unfold grdpaste_body
        rw [if_neg hpaste]
        simp [virtualfile_out_name]

/-- Witness for C3: in-memory grids, `outgrid` unset versus
`outgrid="out.nc"`. -/
theorem grid_modules_outgrid_return_contract_witness :
    (returnsDataArray (grdcut_body .grid [] "t3.nc") ∧
      returnsDataArray (grdfilter_body .grid [] "t3.nc") ∧
      returnsDataArray (binstats_body .matrix Option.none []) ∧
      returnsDataArray (grdclip_body .grid Option.none []) ∧
      returnsDataArray (grdpaste_body .grid .grid Option.none [])) ∧
    (storesToFile (grdcut_body .grid [("G", .str "out.nc")] "t3.nc") "out.nc" ∧
      storesToFile
        (grdfilter_body .grid [("G", .str "out.nc")] "t3.nc") "out.nc" ∧
      storesToFile
        (binstats_body .matrix (some "out.nc") [("G", .str "out.nc")])
        "out.nc" ∧
      storesToFile
        (grdclip_body .grid (some "out.nc") [("G", .str "out.nc")]) "out.nc" ∧
      storesToFile
        (grdpaste_body .grid .grid (some "out.nc") [("G", .str "out.nc")])
        "out.nc") :=
  grid_modules_outgrid_return_contract .grid .matrix .grid .grid []
    [("G", .str "out.nc")] "t3.nc" "out.nc" (Or.inr rfl) rfl rfl rfl
    (by decide)

/-! ## Claims C4 and C6: the sequence conversions -/

/-- The string an item finally contributes to the joined argument: the
numpy datetime string when `str(item)` contains a space (total version of
`renderItem`, meaningful whenever the conversion succeeded), plain
`str(item)` otherwise. -/
def itemRendered (it : PyItem) : String :=
  if strHasSpace it.strForm then it.asDatetimeString.getD it.strForm
  else it.strForm

theorem renderItems_eq (items : List PyItem) (rs : List String)
    (h : renderItems items = some rs) :
    rs = items.map itemRendered ∧
    ∀ it ∈ items, strHasSpace it.strForm = true →
      ∃ d, it.asDatetimeString = some d := by
  induction items generalizing rs with
  | nil =>
    simp only [renderItems, Option.some.injEq] at h
    simp [← h]
  | cons it rest ih =>
    unfold renderItems at h
    cases hr : renderItem it with
    | none => rw [hr] at h; exact absurd h (by simp)
    | some y =>
      cases hrest : renderItems rest with
      | none => rw [hr, hrest] at h; exact absurd h (by simp)
      | some ys =>
        rw [hr, hrest] at h
        simp only [Option.some.injEq] at h
        rcases ih ys hrest with ⟨hys, hdef⟩
        have hy : y = itemRendered it ∧
            (strHasSpace it.strForm = true →
              ∃ d, it.asDatetimeString = some d) := by
          unfold renderItem at hr
          unfold itemRendered
          by_cases hsp : strHasSpace it.strForm = true
          · rw [if_pos hsp] at hr
            rw [if_pos hsp]
            exact ⟨by rw [hr]; rfl, fun _ => ⟨y, hr⟩⟩
          · have hsp' : strHasSpace it.strForm = false := by
              simpa using hsp
            rw [if_neg hsp] at hr
            rw [if_neg hsp]
            exact ⟨(Option.some.inj hr).symm,
              fun hc => absurd (hsp'.symm.trans hc) Bool.false_ne_true⟩
        constructor
        · rw [← h, hys, hy.1, List.map_cons]
        · intro a ha hsp
          rcases List.mem_cons.mp ha with rfl | ha
          · exact hy.2 hsp
          · exact hdef a ha hsp

theorem convStep_preserves (c : String × SeqFmt) (kw kw1 : Kwargs)
    (arg : String) (hne : c.1 ≠ arg)
    (h : convStep kw c = some kw1) :
    lookupKey kw1 arg = lookupKey kw arg := by
  unfold convStep at h
  cases hl : lookupKey kw c.1 with
  | none =>
    rw [hl] at h
    simp only [Option.some.injEq] at h
    rw [← h]
  | some v =>
    rw [hl] at h
    cases v with
    | seq items =>
      dsimp only at h
      cases hc : convertSeq c.2 items with
      | none => rw [hc] at h; exact absurd h (by simp)
      | some s =>
        rw [hc] at h
        simp only [Option.some.injEq] at h
        rw [← h]
        exact lookupKey_setKey_ne kw c.1 arg _ (fun he => hne he.symm)
    | str s => dsimp only at h; simp only [Option.some.injEq] at h; rw [← h]
    | bool b => dsimp only at h; simp only [Option.some.injEq] at h; rw [← h]
    | pyNone => dsimp only at h; simp only [Option.some.injEq] at h; rw [← h]
    | num n => dsimp only at h; simp only [Option.some.injEq] at h; rw [← h]

theorem kwargs_run_preserves (cs : List (String × SeqFmt)) (kw kw' : Kwargs)
    (arg : String) (hcs : ∀ c ∈ cs, c.1 ≠ arg)
    (h : kwargs_to_strings_run cs kw = some kw') :
    lookupKey kw' arg = lookupKey kw arg := by
  induction cs generalizing kw with
  | nil =>
    simp only [kwargs_to_strings_run, Option.some.injEq] at h
    rw [← h]
  | cons c rest ih =>
    unfold kwargs_to_strings_run at h
    cases hstep : convStep kw c with
    | none => rw [hstep] at h; exact absurd h (by simp)
    | some kw1 =>
      rw [hstep] at h
      rw [ih kw1 (fun q hq => hcs q (by simp [hq])) h]
      exact convStep_preserves c kw kw1 arg (hcs c (by simp)) hstep

theorem kwargs_run_append (a b : List (String × SeqFmt)) (kw : Kwargs) :
    kwargs_to_strings_run (a ++ b) kw =
      (kwargs_to_strings_run a kw).bind
        (fun kw1 => kwargs_to_strings_run b kw1) := by
  induction a generalizing kw with
  | nil => simp [kwargs_to_strings_run]
  | cons c rest ih =>
    rw [List.cons_append]
    have hL : kwargs_to_strings_run (c :: (rest ++ b)) kw =
        match convStep kw c with
        | some kw1 => kwargs_to_strings_run (rest ++ b) kw1
        | Option.none => Option.none := rfl
    have hR : kwargs_to_strings_run (c :: rest) kw =
        match convStep kw c with
        | some kw1 => kwargs_to_strings_run rest kw1
        | Option.none => Option.none := rfl
    rw [hL, hR]
    cases hstep : convStep kw c with
    | none => simp
    | some kw1 => simp [ih kw1]

theorem kwargs_run_seq_core (pre post : List (String × SeqFmt))
    (arg : String) (fmt : SeqFmt) (kw kw' : Kwargs) (items : List PyItem)
    (hpre : ∀ c ∈ pre, c.1 ≠ arg) (hpost : ∀ c ∈ post, c.1 ≠ arg)
    (hlook : lookupKey kw arg = some (.seq items))
    (hrun : kwargs_to_strings_run (pre ++ (arg, fmt) :: post) kw = some kw') :
    (∀ it ∈ items, strHasSpace it.strForm = true →
      ∃ d, it.asDatetimeString = some d) ∧
    lookupKey kw' arg =
      some (.str (String.intercalate (sepOf fmt) (items.map itemRendered))) := by
  rw [kwargs_run_append] at hrun
  cases hp : kwargs_to_strings_run pre kw with
  | none => rw [hp] at hrun; exact absurd hrun (by simp)
  | some kw1 =>
    rw [hp] at hrun
    simp only [Option.some_bind] at hrun
    have hlook1 : lookupKey kw1 arg = some (.seq items) := by
      rw [kwargs_run_preserves pre kw kw1 arg hpre hp, hlook]
    unfold kwargs_to_strings_run at hrun
    have hstep : convStep kw1 (arg, fmt) =
        match convertSeq fmt items with
        | some s => some (setKey kw1 arg (.str s))
        | Option.none => Option.none := by
      unfold convStep
      rw [hlook1]
    cases hc : convertSeq fmt items with
    | none =>
      rw [hstep, hc] at hrun
      exact absurd hrun (by simp)
    | some s =>
      rw [hstep, hc] at hrun
      have hconv : ∃ rs, renderItems items = some rs ∧
          String.intercalate (sepOf fmt) rs = s := by
        unfold convertSeq at hc
        cases hm : renderItems items with
        | none => rw [hm] at hc; exact absurd hc (by simp)
        | some rs =>
          rw [hm] at hc
          exact ⟨rs, rfl, Option.some.inj hc⟩
      rcases hconv with ⟨rs, hm, hs⟩
      rcases renderItems_eq items rs hm with ⟨hrs, hdef⟩
      refine ⟨hdef, ?_⟩
      have hpost' : lookupKey kw' arg = lookupKey (setKey kw1 arg (.str s)) arg :=
        kwargs_run_preserves post _ kw' arg hpost hrun
      rw [hpost', lookupKey_setKey_self, ← hs, hrs]

theorem kwargs_run_pass_through (cs : List (String × SeqFmt))
    (kw kw' : Kwargs) (arg : String) (v : PyVal)
    (hlook : lookupKey kw arg = some v) (hv : is_nonstr_iter v = false)
    (hrun : kwargs_to_strings_run cs kw = some kw') :
    lookupKey kw' arg = some v := by
  induction cs generalizing kw with
  | nil =>
    simp only [kwargs_to_strings_run, Option.some.injEq] at hrun
    rw [← hrun]
    exact hlook
  | cons c rest ih =>
    unfold kwargs_to_strings_run at hrun
    cases hstep : convStep kw c with
    | none => rw [hstep] at hrun; exact absurd hrun (by simp)
    | some kw1 =>
      rw [hstep] at hrun
      have hlook1 : lookupKey kw1 arg = some v := by
        by_cases hne : c.1 = arg
        · subst hne
          unfold convStep at hstep
          rw [hlook] at hstep
          cases v with
          | seq items => simp [is_nonstr_iter] at hv
          | str s =>
            dsimp only at hstep
            simp only [Option.some.injEq] at hstep
            rw [← hstep]; exact hlook
          | bool b =>
            dsimp only at hstep
            simp only [Option.some.injEq] at hstep
            rw [← hstep]; exact hlook
          | pyNone =>
            dsimp only at hstep
            simp only [Option.some.injEq] at hstep
            rw [← hstep]; exact hlook
          | num n =>
            dsimp only at hstep
            simp only [Option.some.injEq] at hstep
            rw [← hstep]; exact hlook
        · rw [convStep_preserves c kw kw1 arg hne hstep]
          exact hlook
      exact ih kw1 hlook1 hrun

/-- A datetime-like sequence item: `str(item)` carries a space, the numpy
conversion yields the ISO 8601 form (the values are those of the decorator's
own doctest, decorators.py lines 686-693). -/
def dtItem : PyItem :=
  { strForm := "2020-01-01 12:23:45"
    asDatetimeString := some "2020-01-01T12:23:45.000000" }

/-- A plain numeric sequence item. -/
def numItem : PyItem := { strForm := "8", asDatetimeString := Option.none }

/-- **Counterexample to C4.**  The claim says a registered sequence
parameter reaches the wrapped function as the `'/'`-join of the **string
form** (`str()`) of each item.  For `R=[datetime.datetime(2020, 1, 1, 12,
23, 45)]` the wrapped function instead receives the numpy ISO form
`"2020-01-01T12:23:45.000000"`, not the join of the `str()` forms, which
would be `"2020-01-01 12:23:45"` (exactly the behaviour shown in the
decorator's doctest, decorators.py line 693). -/
theorem sequence_join_not_str_form :
    kwargs_to_strings_run [("R", .sequence)] [("R", .seq [dtItem])] =
      some [("R", .str "2020-01-01T12:23:45.000000")] ∧
    PyVal.str "2020-01-01T12:23:45.000000" ≠
      PyVal.str (String.intercalate "/" ([dtItem].map PyItem.strForm)) := by
  exact ⟨by decide, by decide⟩

/-- **C4 (amended).**  For every function decorated with
`kwargs_to_strings` and every parameter registered with conversion
`"sequence"` (resp. `"sequence_comma"`), a call binding that parameter to a
non-string iterable hands the wrapped function the single string joining
the **rendered** form of each item with `"/"` (resp. `","`), where an item
whose `str()` form contains a space is rendered as its numpy datetime
string and every other item as plain `str()`; values that are already
strings, and boolean or `None` values, are passed through unchanged. -/
theorem kwargs_to_strings_sequence_join (pre post : List (String × SeqFmt))
    (arg : String) (fmt : SeqFmt) (kw kw' : Kwargs) (items : List PyItem)
    (v : PyVal)
    (hpre : ∀ c ∈ pre, c.1 ≠ arg) (hpost : ∀ c ∈ post, c.1 ≠ arg)
    (hrun : kwargs_to_strings_run (pre ++ (arg, fmt) :: post) kw = some kw') :
    (lookupKey kw arg = some (.seq items) →
      lookupKey kw' arg =
        some (.str (String.intercalate (sepOf fmt) (items.map itemRendered)))) ∧
    (lookupKey kw arg = some v → is_nonstr_iter v = false →
      lookupKey kw' arg = some v) := by
  constructor
  · intro hlook
    exact (kwargs_run_seq_core pre post arg fmt kw kw' items hpre hpost
      hlook hrun).2
  · intro hlook hv
    exact kwargs_run_pass_through _ kw kw' arg v hlook hv hrun

/-- Witness for the amended C4: `R=[datetime, 8]` with a second registered
parameter `i` unset, and a `bool` parameter passing through. -/
theorem kwargs_to_strings_sequence_join_witness :
    lookupKey [("R", PyVal.str "2020-01-01T12:23:45.000000/8"),
        ("P", PyVal.bool true)] "R" =
      some (.str (String.intercalate (sepOf .sequence)
        ([dtItem, numItem].map itemRendered))) ∧
    lookupKey [("R", PyVal.str "2020-01-01T12:23:45.000000/8"),
        ("P", PyVal.bool true)] "P" =
      some (PyVal.bool true) := by
  constructor
  · exact (kwargs_to_strings_sequence_join [] [("i", .sequence_comma)] "R"
      .sequence [("R", .seq [dtItem, numItem]), ("P", .bool true)]
      [("R", PyVal.str "2020-01-01T12:23:45.000000/8"), ("P", PyVal.bool true)]
      [dtItem, numItem] (.bool true)
      (by decide) (by decide) (by decide)).1 (by decide)
  · exact (kwargs_to_strings_sequence_join [("R", .sequence)] [] "P"
      .sequence_comma [("R", .seq [dtItem, numItem]), ("P", .bool true)]
      [("R", PyVal.str "2020-01-01T12:23:45.000000/8"), ("P", PyVal.bool true)]
      [] (.bool true)
      (by decide) (by decide) (by decide)).2 (by decide) (by decide)

/-- **C6.**  In the `kwargs_to_strings` sequence conversion, every item of
the sequence whose `str()` form contains a space character is replaced,
before joining, by the ISO 8601 string of its numpy `datetime64`
conversion, while items whose string form contains no space are formatted
with plain `str()`. -/
theorem sequence_items_datetime_rendering (pre post : List (String × SeqFmt))
    (arg : String) (fmt : SeqFmt) (kw kw' : Kwargs) (items : List PyItem)
    (hpre : ∀ c ∈ pre, c.1 ≠ arg) (hpost : ∀ c ∈ post, c.1 ≠ arg)
    (hlook : lookupKey kw arg = some (.seq items))
    (hrun : kwargs_to_strings_run (pre ++ (arg, fmt) :: post) kw = some kw') :
    (∀ it ∈ items, strHasSpace it.strForm = true →
      ∃ d, it.asDatetimeString = some d ∧ itemRendered it = d) ∧
    (∀ it ∈ items, strHasSpace it.strForm = false →
      itemRendered it = it.strForm) ∧
    lookupKey kw' arg =
      some (.str (String.intercalate (sepOf fmt) (items.map itemRendered))) := by
  rcases kwargs_run_seq_core pre post arg fmt kw kw' items hpre hpost
    hlook hrun with ⟨hdef, hfinal⟩
  refine ⟨?_, ?_, hfinal⟩
  · intro it hit hsp
    rcases hdef it hit hsp with ⟨d, hd⟩
    exact ⟨d, hd, by simp [itemRendered, hsp, hd]⟩
  · intro it _ hsp
    simp [itemRendered, hsp]

/-- Witness for C6, at the doctest's datetime plus a plain number. -/
theorem sequence_items_datetime_rendering_witness :
    (∀ it ∈ [dtItem, numItem], strHasSpace it.strForm = true →
      ∃ d, it.asDatetimeString = some d ∧ itemRendered it = d) ∧
    (∀ it ∈ [dtItem, numItem], strHasSpace it.strForm = false →
      itemRendered it = it.strForm) ∧
    lookupKey [("R", PyVal.str "2020-01-01T12:23:45.000000/8")] "R" =
      some (.str (String.intercalate (sepOf .sequence)
        ([dtItem, numItem].map itemRendered))) :=
  sequence_items_datetime_rendering [] [] "R" .sequence
    [("R", .seq [dtItem, numItem])]
    [("R", PyVal.str "2020-01-01T12:23:45.000000/8")]
    [dtItem, numItem] (by decide) (by decide) (by decide) (by decide)

/-! ## Claims C5, C8, C9: the `use_alias` loop -/

theorem runAliases_append (a b : List (String × String)) (kw : Kwargs) :
    runAliases (a ++ b) kw =
      match runAliases a kw with
      | .error e => .error e
      | .ok (kw1, ws) =>
        match runAliases b kw1 with
        | .error e => .error e
        | .ok (kw2, ws') => .ok (kw2, ws ++ ws') := by
  induction a generalizing kw with
  | nil =>
    cases h : runAliases b kw with
    | error e => simp [runAliases, h]
    | ok pr => simp [runAliases, h]
  | cons p rest ih =>
    have hL : runAliases ((p :: rest) ++ b) kw =
        match aliasStep kw p with
        | .error e => .error e
        | .ok (kw1, ws) =>
          match runAliases (rest ++ b) kw1 with
          | .error e => .error e
          | .ok (kw2, ws') => .ok (kw2, ws ++ ws') := rfl
    have hR : runAliases (p :: rest) kw =
        match aliasStep kw p with
        | .error e => .error e
        | .ok (kw1, ws) =>
          match runAliases rest kw1 with
          | .error e => .error e
          | .ok (kw2, ws') => .ok (kw2, ws ++ ws') := rfl
    rw [hL, hR]
    cases hstep : aliasStep kw p with
    | error e => rfl
    | ok pr =>
      obtain ⟨kw1, ws⟩ := pr
      dsimp only
      rw [ih kw1]
      cases h1 : runAliases rest kw1 with
      | error e => rfl
      | ok pr2 =>
        obtain ⟨kw2, ws2⟩ := pr2
        dsimp only
        cases h2 : runAliases b kw2 with
        | error e => rfl
        | ok pr3 =>
          obtain ⟨kw3, ws3⟩ := pr3
          simp

theorem containsKey_eq_isSome (kw : Kwargs) (n : String) :
    containsKey kw n = (lookupKey kw n).isSome := by
  induction kw with
  | nil => rfl
  | cons p rest ih =>
    by_cases hp : p.1 = n
    · simp [containsKey, lookupKey, hp]
    · simp [containsKey, lookupKey, hp, ih]

theorem lookupKey_eraseKey_self (kw : Kwargs) (k : String) :
    lookupKey (eraseKey kw k) k = Option.none := by
  induction kw with
  | nil => rfl
  | cons p rest ih =>
    by_cases hp : p.1 = k
    · simp [eraseKey, hp, ih]
    · simp [eraseKey, lookupKey, hp, ih]

theorem lookupKey_eraseKey_ne (kw : Kwargs) (k n : String) (hne : n ≠ k) :
    lookupKey (eraseKey kw k) n = lookupKey kw n := by
  induction kw with
  | nil => rfl
  | cons p rest ih =>
    by_cases hp : p.1 = k
    · have h2 : (p.1 == n) = false := by
        simpa [hp] using fun hc => hne hc.symm
      have h3 : (k == n) = false := by
        simpa using fun hc => hne hc.symm
      simp [eraseKey, hp, lookupKey, h2, h3, ih]
    · by_cases hpn : p.1 = n
      · simp [eraseKey, hp, lookupKey, hpn, hne]
      · simp [eraseKey, hp, lookupKey, hpn, ih]

theorem containsKey_setKey_ne (kw : Kwargs) (k n : String) (v : PyVal)
    (hne : n ≠ k) : containsKey (setKey kw k v) n = containsKey kw n := by
  unfold setKey
  by_cases h : containsKey kw k
  · rw [if_pos h, containsKey_replaceKey]
  · rw [if_neg h, containsKey_append]
    have h1 : containsKey [(k, v)] n = false := by
      simp [containsKey]
      exact fun hc => hne hc.symm
    rw [h1, Bool.or_false]

/-- The lookups of the pop-then-set rewrite `kwargs[b] = kwargs.pop(a)`. -/
theorem lookupKey_move (kw : Kwargs) (a b n : String) (v' : PyVal) :
    lookupKey (setKey (eraseKey kw a) b v') n =
      if n = b then some v'
      else if n = a then Option.none
      else lookupKey kw n := by
  by_cases hb : n = b
  · rw [if_pos hb, hb, lookupKey_setKey_self]
  · rw [if_neg hb, lookupKey_setKey_ne _ _ _ _ hb]
    by_cases ha : n = a
    · rw [if_pos ha, ha, lookupKey_eraseKey_self]
    · rw [if_neg ha, lookupKey_eraseKey_ne _ _ _ ha]

/-! Branch equations for one iteration of the alias loop
(decorators.py lines 555-594). -/

theorem aliasStep_nondash_coexist (kw : Kwargs) (s l : String)
    (hd : endsWithDash l = false)
    (hA : containsKey kw l = true) (hB : containsKey kw s = true) :
    aliasStep kw (s, l) = .error (.GMTInvalidInput (coexistMsg s l)) := by
  unfold aliasStep
  simp only [hd, Bool.false_eq_true, if_false, hA, hB, Bool.and_self, if_true]

theorem aliasStep_nondash_move (kw : Kwargs) (s l : String) (v' : PyVal)
    (hd : endsWithDash l = false)
    (hA : containsKey kw l = true) (hB : containsKey kw s = false)
    (hv : lookupKey kw l = some v') :
    aliasStep kw (s, l) = .ok (setKey (eraseKey kw l) s v', []) := by
  unfold aliasStep
  simp only [hd, Bool.false_eq_true, if_false, hA, hB, Bool.and_false, if_true,
    hv]

theorem aliasStep_nondash_warn (kw : Kwargs) (s l : String)
    (hd : endsWithDash l = false)
    (hA : containsKey kw l = false) (hB : containsKey kw s = true) :
    aliasStep kw (s, l) = .ok (kw, [notRecommendedMsg s l]) := by
  unfold aliasStep
  simp only [hd, Bool.false_eq_true, if_false, hA, hB, Bool.false_and, if_true]

theorem aliasStep_nondash_id (kw : Kwargs) (s l : String)
    (hd : endsWithDash l = false)
    (hA : containsKey kw l = false) (hB : containsKey kw s = false) :
    aliasStep kw (s, l) = .ok (kw, []) := by
  unfold aliasStep
  simp only [hd, Bool.false_eq_true, if_false, hA, hB, Bool.false_and]

theorem aliasStep_dash_coexist (kw : Kwargs) (s l : String)
    (hd : endsWithDash l = true)
    (hA : (splitOnSlash (rstripDash l)).any (fun a => containsKey kw a) = true)
    (hB : containsKey kw s = true) :
    aliasStep kw (s, l) =
      .error (.GMTInvalidInput (coexistMsg s (rstripDash l))) := by
  unfold aliasStep
  simp only [hd, if_true, hA, hB, Bool.and_self]

theorem aliasStep_dash_notrec (kw : Kwargs) (s l : String)
    (hd : endsWithDash l = true)
    (hA : (splitOnSlash (rstripDash l)).any (fun a => containsKey kw a) = false)
    (hB : containsKey kw s = true)
    (hlen : (splitOnSlash (rstripDash l)).length > 1) :
    aliasStep kw (s, l) =
      .error (.GMTInvalidInput (notRecognizedMsg s (rstripDash l))) := by
  unfold aliasStep
  simp only [hd, if_true, hA, Bool.false_and, Bool.false_eq_true, if_false, hB]
  rw [if_pos hlen]

theorem aliasStep_dash_move (kw : Kwargs) (s l : String) (v' : PyVal)
    (hd : endsWithDash l = true)
    (hA : (splitOnSlash (rstripDash l)).any (fun a => containsKey kw a) = false)
    (hB : containsKey kw s = true)
    (hlen : ¬(splitOnSlash (rstripDash l)).length > 1)
    (hv : lookupKey kw s = some v') :
    aliasStep kw (s, l) = .ok (setKey (eraseKey kw s) (rstripDash l) v', []) := by
  unfold aliasStep
  simp only [hd, if_true, hA, Bool.false_and, Bool.false_eq_true, if_false, hB,
    hv]
  rw [if_neg hlen]

theorem aliasStep_dash_id (kw : Kwargs) (s l : String)
    (hd : endsWithDash l = true)
    (hB : containsKey kw s = false) :
    aliasStep kw (s, l) = .ok (kw, []) := by
  unfold aliasStep
  simp only [hd, if_true, hB, Bool.and_false, Bool.false_eq_true, if_false]

/-- Python dict equality of two kwargs dictionaries: the same value under
every key, regardless of insertion order (the notion under which two
`**kwargs` dictionaries are identical). -/
def kwEquiv (kw1 kw2 : Kwargs) : Prop :=
  ∀ n, lookupKey kw1 n = lookupKey kw2 n

theorem kwEquiv_contains (kw1 kw2 : Kwargs) (heq : kwEquiv kw1 kw2)
    (n : String) : containsKey kw1 n = containsKey kw2 n := by
  rw [containsKey_eq_isSome, containsKey_eq_isSome, heq n]

theorem list_any_congr {l : List String} (f g : String → Bool)
    (h : ∀ a ∈ l, f a = g a) : l.any f = l.any g := by
  induction l with
  | nil => rfl
  | cons x xs ih =>
    simp only [List.any_cons, h x (by simp),
      ih (fun a ha => h a (by simp [ha]))]

/-- Every key one iteration of the alias loop may read or write for the
pair `p`: the short flag, the (dash-stripped) long name, and, for dash
pairs, the `/`-separated long names. -/
def aliasTouched (p : String × String) : List String :=
  if endsWithDash p.2 then
    p.1 :: rstripDash p.2 :: splitOnSlash (rstripDash p.2)
  else [p.1, p.2]

/-- One alias-loop iteration is congruent for any relation on kwargs
dictionaries that holds initially, makes the two dictionaries agree on the
pair's own keys, and is preserved by the pop-then-set rewrite performed
simultaneously on both sides. -/
theorem aliasStep_rel (R : Kwargs → Kwargs → Prop) (p : String × String)
    (kw1 kw2 : Kwargs)
    (hval : ∀ n ∈ aliasTouched p, lookupKey kw1 n = lookupKey kw2 n)
    (hrel : R kw1 kw2)
    (hmove : ∀ a b v', a ∈ aliasTouched p → b ∈ aliasTouched p →
      R (setKey (eraseKey kw1 a) b v') (setKey (eraseKey kw2 a) b v')) :
    (∀ e, aliasStep kw1 p = .error e ↔ aliasStep kw2 p = .error e) ∧
    (∀ kw1' ws, aliasStep kw1 p = .ok (kw1', ws) →
      ∃ kw2', aliasStep kw2 p = .ok (kw2', ws) ∧ R kw1' kw2') := by
  obtain ⟨s, l⟩ := p
  have hcond : ∀ n ∈ aliasTouched (s, l),
      containsKey kw1 n = containsKey kw2 n := by
    intro n hn
    rw [containsKey_eq_isSome, containsKey_eq_isSome, hval n hn]
  by_cases hd : endsWithDash l = true
  · have hsmem : s ∈ aliasTouched (s, l) := by simp [aliasTouched, hd]
    have hstripmem : rstripDash l ∈ aliasTouched (s, l) := by
      simp [aliasTouched, hd]
    have hcompmem : ∀ a ∈ splitOnSlash (rstripDash l),
        a ∈ aliasTouched (s, l) := by
      intro a ha
      simp [aliasTouched, hd, ha]
    have hany : (splitOnSlash (rstripDash l)).any (fun a => containsKey kw1 a)
        = (splitOnSlash (rstripDash l)).any (fun a => containsKey kw2 a) :=
      list_any_congr _ _ (fun a ha => hcond a (hcompmem a ha))
    by_cases hB : containsKey kw1 s = true
    · have hB2 : containsKey kw2 s = true := by rw [← hcond s hsmem]; exact hB
      by_cases hA : (splitOnSlash (rstripDash l)).any
          (fun a => containsKey kw1 a) = true
      · have hA2 : (splitOnSlash (rstripDash l)).any
            (fun a => containsKey kw2 a) = true := by rw [← hany]; exact hA
        rw [aliasStep_dash_coexist kw1 s l hd hA hB,
          aliasStep_dash_coexist kw2 s l hd hA2 hB2]
        exact ⟨fun e => Iff.rfl, fun kw1' ws h => absurd h (by simp)⟩
      · have hA1 : (splitOnSlash (rstripDash l)).any
            (fun a => containsKey kw1 a) = false := by simpa using hA
        have hA2 : (splitOnSlash (rstripDash l)).any
            (fun a => containsKey kw2 a) = false := by rw [← hany]; exact hA1
        by_cases hlen : (splitOnSlash (rstripDash l)).length > 1
        · rw [aliasStep_dash_notrec kw1 s l hd hA1 hB hlen,
            aliasStep_dash_notrec kw2 s l hd hA2 hB2 hlen]
          exact ⟨fun e => Iff.rfl, fun kw1' ws h => absurd h (by simp)⟩
        · rcases lookupKey_isSome_of_contains kw1 s hB with ⟨v', hv1⟩
          have hv2 : lookupKey kw2 s = some v' := by
            rw [← hval s hsmem]; exact hv1
          rw [aliasStep_dash_move kw1 s l v' hd hA1 hB hlen hv1,
            aliasStep_dash_move kw2 s l v' hd hA2 hB2 hlen hv2]
          refine ⟨fun e => ⟨fun h => absurd h (by simp),
            fun h => absurd h (by simp)⟩, ?_⟩
          intro kw1' ws h
          simp only [Except.ok.injEq, Prod.mk.injEq] at h
          exact ⟨setKey (eraseKey kw2 s) (rstripDash l) v', by rw [← h.2],
            h.1 ▸ hmove s (rstripDash l) v' hsmem hstripmem⟩
    · have hB1 : containsKey kw1 s = false := by simpa using hB
      have hB2 : containsKey kw2 s = false := by rw [← hcond s hsmem]; exact hB1
      rw [aliasStep_dash_id kw1 s l hd hB1, aliasStep_dash_id kw2 s l hd hB2]
      refine ⟨fun e => ⟨fun h => absurd h (by simp),
        fun h => absurd h (by simp)⟩, ?_⟩
      intro kw1' ws h
      simp only [Except.ok.injEq, Prod.mk.injEq] at h
      exact ⟨kw2, by rw [← h.2], h.1 ▸ hrel⟩
  · have hd' : endsWithDash l = false := by simpa using hd
    have hsmem : s ∈ aliasTouched (s, l) := by simp [aliasTouched, hd']
    have hlmem : l ∈ aliasTouched (s, l) := by simp [aliasTouched, hd']
    by_cases hA : containsKey kw1 l = true
    · have hA2 : containsKey kw2 l = true := by rw [← hcond l hlmem]; exact hA
      by_cases hB : containsKey kw1 s = true
      · have hB2 : containsKey kw2 s = true := by rw [← hcond s hsmem]; exact hB
        rw [aliasStep_nondash_coexist kw1 s l hd' hA hB,
          aliasStep_nondash_coexist kw2 s l hd' hA2 hB2]
        exact ⟨fun e => Iff.rfl, fun kw1' ws h => absurd h (by simp)⟩
      · have hB1 : containsKey kw1 s = false := by simpa using hB
        have hB2 : containsKey kw2 s = false := by
          rw [← hcond s hsmem]; exact hB1
        rcases lookupKey_isSome_of_contains kw1 l hA with ⟨v', hv1⟩
        have hv2 : lookupKey kw2 l = some v' := by
          rw [← hval l hlmem]; exact hv1
        rw [aliasStep_nondash_move kw1 s l v' hd' hA hB1 hv1,
          aliasStep_nondash_move kw2 s l v' hd' hA2 hB2 hv2]
        refine ⟨fun e => ⟨fun h => absurd h (by simp),
          fun h => absurd h (by simp)⟩, ?_⟩
        intro kw1' ws h
        simp only [Except.ok.injEq, Prod.mk.injEq] at h
        exact ⟨setKey (eraseKey kw2 l) s v', by rw [← h.2],
          h.1 ▸ hmove l s v' hlmem hsmem⟩
    · have hA1 : containsKey kw1 l = false := by simpa using hA
      have hA2 : containsKey kw2 l = false := by rw [← hcond l hlmem]; exact hA1
      by_cases hB : containsKey kw1 s = true
      · have hB2 : containsKey kw2 s = true := by rw [← hcond s hsmem]; exact hB
        rw [aliasStep_nondash_warn kw1 s l hd' hA1 hB,
          aliasStep_nondash_warn kw2 s l hd' hA2 hB2]
        refine ⟨fun e => ⟨fun h => absurd h (by simp),
          fun h => absurd h (by simp)⟩, ?_⟩
        intro kw1' ws h
        simp only [Except.ok.injEq, Prod.mk.injEq] at h
        exact ⟨kw2, by rw [← h.2], h.1 ▸ hrel⟩
      · have hB1 : containsKey kw1 s = false := by simpa using hB
        have hB2 : containsKey kw2 s = false := by
          rw [← hcond s hsmem]; exact hB1
        rw [aliasStep_nondash_id kw1 s l hd' hA1 hB1,
          aliasStep_nondash_id kw2 s l hd' hA2 hB2]
        refine ⟨fun e => ⟨fun h => absurd h (by simp),
          fun h => absurd h (by simp)⟩, ?_⟩
        intro kw1' ws h
        simp only [Except.ok.injEq, Prod.mk.injEq] at h
        exact ⟨kw2, by rw [← h.2], h.1 ▸ hrel⟩

/-- The whole alias loop is congruent for any relation whose step
congruence holds at every pair of the table. -/
theorem runAliases_rel (R : Kwargs → Kwargs → Prop)
    (table : List (String × String)) (kw1 kw2 : Kwargs)
    (hstep : ∀ p ∈ table, ∀ kwa kwb, R kwa kwb →
      (∀ e, aliasStep kwa p = .error e ↔ aliasStep kwb p = .error e) ∧
      (∀ kwa' ws, aliasStep kwa p = .ok (kwa', ws) →
        ∃ kwb', aliasStep kwb p = .ok (kwb', ws) ∧ R kwa' kwb'))
    (hrel : R kw1 kw2) :
    (∀ e, runAliases table kw1 = .error e ↔ runAliases table kw2 = .error e) ∧
    (∀ kw1' ws, runAliases table kw1 = .ok (kw1', ws) →
      ∃ kw2', runAliases table kw2 = .ok (kw2', ws) ∧ R kw1' kw2') := by
  induction table generalizing kw1 kw2 with
  | nil =>
    refine ⟨fun e => ⟨fun h => absurd h (by simp [runAliases]),
      fun h => absurd h (by simp [runAliases])⟩, ?_⟩
    intro kw1' ws h
    simp only [runAliases, Except.ok.injEq, Prod.mk.injEq] at h
    refine ⟨kw2, ?_, h.1 ▸ hrel⟩
    rw [← h.2]
    rfl
  | cons p rest ih =>
    have hcons1 : runAliases (p :: rest) kw1 =
        match aliasStep kw1 p with
        | .error e => .error e
        | .ok (kwa, ws) =>
          match runAliases rest kwa with
          | .error e => .error e
          | .ok (kwc, ws') => .ok (kwc, ws ++ ws') := rfl
    have hcons2 : runAliases (p :: rest) kw2 =
        match aliasStep kw2 p with
        | .error e => .error e
        | .ok (kwa, ws) =>
          match runAliases rest kwa with
          | .error e => .error e
          | .ok (kwc, ws') => .ok (kwc, ws ++ ws') := rfl
    rw [hcons1, hcons2]
    have hp := hstep p (by simp) kw1 kw2 hrel
    cases hs1 : aliasStep kw1 p with
    | error e0 =>
      have hs2 : aliasStep kw2 p = .error e0 := (hp.1 e0).mp hs1
      rw [hs2]
      exact ⟨fun e => Iff.rfl, fun kw1' ws h => absurd h (by simp)⟩
    | ok pr =>
      obtain ⟨kwa, ws0⟩ := pr
      rcases hp.2 kwa ws0 hs1 with ⟨kwb, hs2, hrelab⟩
      rw [hs2]
      dsimp only
      have ihm := ih kwa kwb (fun q hq => hstep q (by simp [hq])) hrelab
      cases hr1 : runAliases rest kwa with
      | error e0 =>
        have hr2 : runAliases rest kwb = .error e0 := (ihm.1 e0).mp hr1
        rw [hr2]
        exact ⟨fun e => Iff.rfl, fun kw1' ws h => absurd h (by simp)⟩
      | ok pr2 =>
        obtain ⟨kwc, ws1⟩ := pr2
        rcases ihm.2 kwc ws1 hr1 with ⟨kwd, hr2, hrelcd⟩
        rw [hr2]
        dsimp only
        refine ⟨fun e => ⟨fun h => absurd h (by simp),
          fun h => absurd h (by simp)⟩, ?_⟩
        intro kw1' ws h
        simp only [Except.ok.injEq, Prod.mk.injEq] at h
        exact ⟨kwd, by rw [← h.2], h.1 ▸ hrelcd⟩

/-- Dict equality is preserved by the simultaneous pop-then-set rewrite. -/
theorem kwEquiv_move (kw1 kw2 : Kwargs) (a b : String) (v' : PyVal)
    (heq : kwEquiv kw1 kw2) :
    kwEquiv (setKey (eraseKey kw1 a) b v') (setKey (eraseKey kw2 a) b v') := by
  intro n
  rw [lookupKey_move, lookupKey_move]
  by_cases hb : n = b
  · simp [hb]
  · by_cases ha : n = a
    · simp [hb, ha]
    · simp [hb, ha, heq n]

theorem aliasStep_congr (p : String × String) (kw1 kw2 : Kwargs)
    (heq : kwEquiv kw1 kw2) :
    (∀ e, aliasStep kw1 p = .error e ↔ aliasStep kw2 p = .error e) ∧
    (∀ kw1' ws, aliasStep kw1 p = .ok (kw1', ws) →
      ∃ kw2', aliasStep kw2 p = .ok (kw2', ws) ∧ kwEquiv kw1' kw2') :=
  aliasStep_rel kwEquiv p kw1 kw2 (fun n _ => heq n) heq
    (fun a b v' _ _ => kwEquiv_move kw1 kw2 a b v' heq)

theorem runAliases_congr (table : List (String × String)) (kw1 kw2 : Kwargs)
    (heq : kwEquiv kw1 kw2) :
    (∀ e, runAliases table kw1 = .error e ↔ runAliases table kw2 = .error e) ∧
    (∀ kw1' ws, runAliases table kw1 = .ok (kw1', ws) →
      ∃ kw2', runAliases table kw2 = .ok (kw2', ws) ∧ kwEquiv kw1' kw2') :=
  runAliases_rel kwEquiv table kw1 kw2
    (fun p _ kwa kwb hr => aliasStep_congr p kwa kwb hr) heq

theorem removedParamsCheck_congr (kw1 kw2 : Kwargs) (heq : kwEquiv kw1 kw2) :
    removedParamsCheck kw1 = removedParamsCheck kw2 := by
  have hc := fun n => kwEquiv_contains kw1 kw2 heq n
  unfold removedParamsCheck
  rw [hc "U", hc "timestamp", hc "X", hc "xshift", hc "Y", hc "yshift"]

/-- The relation between the long-form call's and the short-form call's
kwargs dictionaries before the claim's pair is processed: the first holds
the value under `L`, the second holds it under `F`, and they agree
everywhere else. -/
def kwSwap (F L : String) (v : PyVal) (kw1 kw2 : Kwargs) : Prop :=
  lookupKey kw1 L = some v ∧ lookupKey kw1 F = Option.none ∧
  lookupKey kw2 F = some v ∧ lookupKey kw2 L = Option.none ∧
  ∀ n, n ≠ F → n ≠ L → lookupKey kw1 n = lookupKey kw2 n

theorem kwSwap_move (F L : String) (v : PyVal) (kw1 kw2 : Kwargs)
    (a b : String) (v' : PyVal) (hrel : kwSwap F L v kw1 kw2)
    (haF : a ≠ F) (haL : a ≠ L) (hbF : b ≠ F) (hbL : b ≠ L) :
    kwSwap F L v (setKey (eraseKey kw1 a) b v')
      (setKey (eraseKey kw2 a) b v') := by
  obtain ⟨h1, h2, h3, h4, h5⟩ := hrel
  refine ⟨?_, ?_, ?_, ?_, ?_⟩
  · rw [lookupKey_move, if_neg (fun hc => hbL hc.symm),
      if_neg (fun hc => haL hc.symm)]
    exact h1
  · rw [lookupKey_move, if_neg (fun hc => hbF hc.symm),
      if_neg (fun hc => haF hc.symm)]
    exact h2
  · rw [lookupKey_move, if_neg (fun hc => hbF hc.symm),
      if_neg (fun hc => haF hc.symm)]
    exact h3
  · rw [lookupKey_move, if_neg (fun hc => hbL hc.symm),
      if_neg (fun hc => haL hc.symm)]
    exact h4
  · intro n hnF hnL
    rw [lookupKey_move, lookupKey_move]
    by_cases hb : n = b
    · simp [hb]
    · by_cases ha : n = a
      · simp [hb, ha]
      · simp [hb, ha, h5 n hnF hnL]

theorem runAliases_swap (pre : List (String × String)) (F L : String)
    (v : PyVal) (kw1 kw2 : Kwargs)
    (hdisj : ∀ p ∈ pre, F ∉ aliasTouched p ∧ L ∉ aliasTouched p)
    (hrel : kwSwap F L v kw1 kw2) :
    (∀ e, runAliases pre kw1 = .error e ↔ runAliases pre kw2 = .error e) ∧
    (∀ kw1' ws, runAliases pre kw1 = .ok (kw1', ws) →
      ∃ kw2', runAliases pre kw2 = .ok (kw2', ws) ∧
        kwSwap F L v kw1' kw2') :=
  runAliases_rel (kwSwap F L v) pre kw1 kw2
    (fun p hp kwa kwb hr =>
      aliasStep_rel (kwSwap F L v) p kwa kwb
        (fun n hn => hr.2.2.2.2 n
          (fun hc => (hdisj p hp).1 (hc ▸ hn))
          (fun hc => (hdisj p hp).2 (hc ▸ hn)))
        hr
        (fun a b v' haT hbT => kwSwap_move F L v kwa kwb a b v' hr
          (fun hc => (hdisj p hp).1 (hc ▸ haT))
          (fun hc => (hdisj p hp).2 (hc ▸ haT))
          (fun hc => (hdisj p hp).1 (hc ▸ hbT))
          (fun hc => (hdisj p hp).2 (hc ▸ hbT))))
    hrel

/-- **C5.**  For every function decorated with `use_alias` and every
registered pair of short flag `F` and long name `L` without trailing dash,
a call supplying a value under `L` is equivalent to a call supplying the
same value under `F`: with the pair's two names distinct from the names of
the pairs registered before it (true of every table in this repository) and
the rest of the call identical, both runs raise the same exception or hand
the wrapped module function identical dictionaries (equal under every key,
the notion of equality of Python `**kwargs` dicts), the only difference
being the `SyntaxWarning` emitted at the pair's position for the short
form. -/
theorem use_alias_long_short_equivalent (pre post : List (String × String))
    (F L : String) (v : PyVal) (base : Kwargs)
    (hdash : endsWithDash L = false) (hFL : F ≠ L)
    (hbF : containsKey base F = false) (hbL : containsKey base L = false)
    (hdisj : ∀ p ∈ pre, F ∉ aliasTouched p ∧ L ∉ aliasTouched p) :
    (∀ e, use_alias_run (pre ++ (F, L) :: post) (setKey base L v) = .error e ↔
      use_alias_run (pre ++ (F, L) :: post) (setKey base F v) = .error e) ∧
    (∀ kwA wsA,
      use_alias_run (pre ++ (F, L) :: post) (setKey base L v) =
        .ok (kwA, wsA) →
      ∃ kwB w1 w2,
        use_alias_run (pre ++ (F, L) :: post) (setKey base F v) =
          .ok (kwB, w1 ++ notRecommendedMsg F L :: w2) ∧
        wsA = w1 ++ w2 ∧ kwEquiv kwA kwB) := by
  have hlF : lookupKey base F = Option.none :=
    lookupKey_eq_none_of_not_contains base F hbF
  have hlL : lookupKey base L = Option.none :=
    lookupKey_eq_none_of_not_contains base L hbL
  have hswap0 : kwSwap F L v (setKey base L v) (setKey base F v) := by
    refine ⟨lookupKey_setKey_self base L v, ?_,
      lookupKey_setKey_self base F v, ?_, ?_⟩
    · rw [lookupKey_setKey_ne base L F v hFL]
      exact hlF
    · rw [lookupKey_setKey_ne base F L v (fun hc => hFL hc.symm)]
      exact hlL
    · intro n hnF hnL
      rw [lookupKey_setKey_ne base L n v hnL, lookupKey_setKey_ne base F n v hnF]
  have hpre := runAliases_swap pre F L v _ _ hdisj hswap0
  cases hpreL : runAliases pre (setKey base L v) with
  | error e0 =>
    have hpreS : runAliases pre (setKey base F v) = .error e0 :=
      (hpre.1 e0).mp hpreL
    have hrunL : use_alias_run (pre ++ (F, L) :: post) (setKey base L v) =
        .error e0 := by
      unfold use_alias_run
      rw [runAliases_append, hpreL]
    have hrunS : use_alias_run (pre ++ (F, L) :: post) (setKey base F v) =
        .error e0 := by
      unfold use_alias_run
      rw [runAliases_append, hpreS]
    rw [hrunL, hrunS]
    exact ⟨fun e => Iff.rfl, fun kwA wsA h => absurd h (by simp)⟩
  | ok pr =>
    obtain ⟨kwL1, w1⟩ := pr
    rcases hpre.2 kwL1 w1 hpreL with ⟨kwS1, hpreS, hswap1⟩
    have hcontL : containsKey kwL1 L = true := by
      rw [containsKey_eq_isSome, hswap1.1]
      rfl
    have hcontF1 : containsKey kwL1 F = false := by
      rw [containsKey_eq_isSome, hswap1.2.1]
      rfl
    have hcontF2 : containsKey kwS1 F = true := by
      rw [containsKey_eq_isSome, hswap1.2.2.1]
      rfl
    have hcontL2 : containsKey kwS1 L = false := by
      rw [containsKey_eq_isSome, hswap1.2.2.2.1]
      rfl
    have hstepL : aliasStep kwL1 (F, L) =
        .ok (setKey (eraseKey kwL1 L) F v, []) :=
      aliasStep_nondash_move kwL1 F L v hdash hcontL hcontF1 hswap1.1
    have hstepS : aliasStep kwS1 (F, L) =
        .ok (kwS1, [notRecommendedMsg F L]) :=
      aliasStep_nondash_warn kwS1 F L hdash hcontL2 hcontF2
    have hequiv1 : kwEquiv (setKey (eraseKey kwL1 L) F v) kwS1 := by
      intro n
      rw [lookupKey_move]
      by_cases hnF : n = F
      · rw [if_pos hnF, hnF]
        exact hswap1.2.2.1.symm
      · rw [if_neg hnF]
        by_cases hnL : n = L
        · rw [if_pos hnL, hnL]
          exact hswap1.2.2.2.1.symm
        · rw [if_neg hnL]
          exact hswap1.2.2.2.2 n hnF hnL
    have hconsL : runAliases ((F, L) :: post) kwL1 =
        match aliasStep kwL1 (F, L) with
        | .error e => .error e
        | .ok (kwa, ws) =>
          match runAliases post kwa with
          | .error e => .error e
          | .ok (kwc, ws') => .ok (kwc, ws ++ ws') := rfl
    have hconsS : runAliases ((F, L) :: post) kwS1 =
        match aliasStep kwS1 (F, L) with
        | .error e => .error e
        | .ok (kwa, ws) =>
          match runAliases post kwa with
          | .error e => .error e
          | .ok (kwc, ws') => .ok (kwc, ws ++ ws') := rfl
    have hpost := runAliases_congr post (setKey (eraseKey kwL1 L) F v) kwS1
      hequiv1
    cases hpostL : runAliases post (setKey (eraseKey kwL1 L) F v) with
    | error e1 =>
      have hpostS : runAliases post kwS1 = .error e1 := (hpost.1 e1).mp hpostL
      have hrunL : use_alias_run (pre ++ (F, L) :: post) (setKey base L v) =
          .error e1 := by
        unfold use_alias_run
        rw [runAliases_append, hpreL]
        dsimp only
        rw [hconsL, hstepL]
        dsimp only
        rw [hpostL]
      have hrunS : use_alias_run (pre ++ (F, L) :: post) (setKey base F v) =
          .error e1 := by
        unfold use_alias_run
        rw [runAliases_append, hpreS]
        dsimp only
        rw [hconsS, hstepS]
        dsimp only
        rw [hpostS]
      rw [hrunL, hrunS]
      exact ⟨fun e => Iff.rfl, fun kwA wsA h => absurd h (by simp)⟩
    | ok pr2 =>
      obtain ⟨kwA2, w2⟩ := pr2
      rcases hpost.2 kwA2 w2 hpostL with ⟨kwB2, hpostS, hequiv2⟩
      have hrc := removedParamsCheck_congr kwA2 kwB2 hequiv2
      cases hrcA : removedParamsCheck kwA2 with
      | error e2 =>
        have hrcB : removedParamsCheck kwB2 = .error e2 := by
          rw [← hrc]
          exact hrcA
        have hrunL : use_alias_run (pre ++ (F, L) :: post) (setKey base L v) =
            .error e2 := by
          unfold use_alias_run
          rw [runAliases_append, hpreL]
          dsimp only
          rw [hconsL, hstepL]
          dsimp only
          rw [hpostL]
          dsimp only
          rw [hrcA]
        have hrunS : use_alias_run (pre ++ (F, L) :: post) (setKey base F v) =
            .error e2 := by
          unfold use_alias_run
          rw [runAliases_append, hpreS]
          dsimp only
          rw [hconsS, hstepS]
          dsimp only
          rw [hpostS]
          dsimp only
          rw [hrcB]
        rw [hrunL, hrunS]
        exact ⟨fun e => Iff.rfl, fun kwA wsA h => absurd h (by simp)⟩
      | ok u =>
        obtain ⟨⟩ := u
        have hrcB : removedParamsCheck kwB2 = .ok () := by
          rw [← hrc]
          exact hrcA
        have hrunL : use_alias_run (pre ++ (F, L) :: post) (setKey base L v) =
            .ok (kwA2, w1 ++ w2) := by
          unfold use_alias_run
          rw [runAliases_append, hpreL]
          dsimp only
          rw [hconsL, hstepL]
          dsimp only
          rw [hpostL]
          dsimp only
          rw [hrcA]
          rfl
        have hrunS : use_alias_run (pre ++ (F, L) :: post) (setKey base F v) =
            .ok (kwB2, w1 ++ notRecommendedMsg F L :: w2) := by
          unfold use_alias_run
          rw [runAliases_append, hpreS]
          dsimp only
          rw [hconsS, hstepS]
          dsimp only
          rw [hpostS]
          dsimp only
          rw [hrcB]
          rfl
        rw [hrunL, hrunS]
        constructor
        · intro e
          exact ⟨fun h => absurd h (by simp), fun h => absurd h (by simp)⟩
        · intro kwA wsA h
          simp only [Except.ok.injEq, Prod.mk.injEq] at h
          exact ⟨kwB2, w1, w2, rfl, h.2.symm, h.1 ▸ hequiv2⟩

/-- Witness for C5: `grdcut`'s alias table and pair `J="projection"`, on a
call that also supplies `region="bla"` — the earlier `R="region"` pair is
rewritten identically in both runs. -/
theorem use_alias_long_short_equivalent_witness :
    ∃ kwB w1 w2,
      use_alias_run
          [("G", "outgrid"), ("R", "region"), ("J", "projection"),
            ("N", "extend"), ("S", "circ_subregion"), ("V", "verbose"),
            ("Z", "z_subregion")]
          (setKey [("region", PyVal.str "bla")] "J" (PyVal.str "meh")) =
        .ok (kwB, w1 ++ notRecommendedMsg "J" "projection" :: w2) ∧
      ([] : List String) = w1 ++ w2 ∧
      kwEquiv [("R", PyVal.str "bla"), ("J", PyVal.str "meh")] kwB :=
  (use_alias_long_short_equivalent [("G", "outgrid"), ("R", "region")]
    [("N", "extend"), ("S", "circ_subregion"), ("V", "verbose"),
      ("Z", "z_subregion")]
    "J" "projection" (PyVal.str "meh") [("region", PyVal.str "bla")]
    (by decide) (by decide) (by decide) (by decide) (by decide)).2
    [("R", PyVal.str "bla"), ("J", PyVal.str "meh")] [] (by decide)

/-- One alias-loop iteration only moves its own keys: the presence of any
other key is unchanged. -/
theorem aliasStep_preserves_untouched (kw kw' : Kwargs) (ws : List String)
    (p : String × String) (n : String) (hn : n ∉ aliasTouched p)
    (h : aliasStep kw p = .ok (kw', ws)) :
    containsKey kw' n = containsKey kw n := by
  unfold aliasStep at h
  dsimp only at h
  split at h
  · next hd =>
    have hns : n ≠ p.1 := fun hc => hn (by simp [aliasTouched, hd, hc])
    have hnr : n ≠ rstripDash p.2 := fun hc =>
      hn (by simp [aliasTouched, hd, hc])
    split at h
    · exact absurd h (by simp)
    · split at h
      · split at h
        · exact absurd h (by simp)
        · split at h
          · next v hv =>
            have hkw' : kw' = setKey (eraseKey kw p.1) (rstripDash p.2) v :=
              ((Prod.mk.inj (Except.ok.inj h)).1).symm
            rw [hkw', containsKey_setKey_ne _ _ _ _ hnr,
              containsKey_eraseKey_ne _ _ _ hns]
          · next hv =>
            rw [← (Prod.mk.inj (Except.ok.inj h)).1]
      · rw [← (Prod.mk.inj (Except.ok.inj h)).1]
  · next hd =>
    have hd' : endsWithDash p.2 = false := by simpa using hd
    have hns : n ≠ p.1 := fun hc => hn (by simp [aliasTouched, hd', hc])
    have hnl : n ≠ p.2 := fun hc => hn (by simp [aliasTouched, hd', hc])
    split at h
    · exact absurd h (by simp)
    · split at h
      · split at h
        · next v hv =>
          have hkw' : kw' = setKey (eraseKey kw p.2) p.1 v :=
            ((Prod.mk.inj (Except.ok.inj h)).1).symm
          rw [hkw', containsKey_setKey_ne _ _ _ _ hns,
            containsKey_eraseKey_ne _ _ _ hnl]
        · next hv =>
          rw [← (Prod.mk.inj (Except.ok.inj h)).1]
      · split at h
        · rw [← (Prod.mk.inj (Except.ok.inj h)).1]
        · rw [← (Prod.mk.inj (Except.ok.inj h)).1]

/-- A successful prefix of the alias loop leaves the presence of every key
it does not own unchanged. -/
theorem runAliases_preserves_untouched (pre : List (String × String))
    (kw kw1 : Kwargs) (ws1 : List String) (n : String)
    (hn : ∀ p ∈ pre, n ∉ aliasTouched p)
    (h : runAliases pre kw = .ok (kw1, ws1)) :
    containsKey kw1 n = containsKey kw n := by
  induction pre generalizing kw kw1 ws1 with
  | nil =>
    simp only [runAliases, Except.ok.injEq, Prod.mk.injEq] at h
    rw [← h.1]
  | cons p rest ih =>
    have hcons : runAliases (p :: rest) kw =
        match aliasStep kw p with
        | .error e => .error e
        | .ok (kwa, ws) =>
          match runAliases rest kwa with
          | .error e => .error e
          | .ok (kwc, ws') => .ok (kwc, ws ++ ws') := rfl
    rw [hcons] at h
    cases hs : aliasStep kw p with
    | error e =>
      rw [hs] at h
      exact absurd h (by simp)
    | ok pr =>
      obtain ⟨kwa, ws0⟩ := pr
      rw [hs] at h
      dsimp only at h
      cases hr : runAliases rest kwa with
      | error e =>
        rw [hr] at h
        exact absurd h (by simp)
      | ok pr2 =>
        obtain ⟨kwc, wsr⟩ := pr2
        rw [hr] at h
        simp only [Except.ok.injEq, Prod.mk.injEq] at h
        rw [← h.1, ih kwa kwc wsr (fun q hq => hn q (by simp [hq])) hr,
          aliasStep_preserves_untouched kw kwa ws0 p n (hn p (by simp)) hs]

/-- **C9.**  For every function decorated with `use_alias` and every
registered alias pair, a call that supplies both the short-form flag and
its long-form name raises `GMTInvalidInput` whose message names both
parameters, and the wrapped module function is not invoked — provided the
pairs registered before this one run without error (they may be active;
their names are distinct from this pair's, as in every table of this
repository). -/
theorem use_alias_short_long_coexist_raises (pre post : List (String × String))
    (F L : String) (kwargs kw1 : Kwargs) (ws1 : List String)
    (hdisj : ∀ p ∈ pre, ∀ n ∈ aliasNames (F, L), n ∉ aliasTouched p)
    (hpreok : runAliases pre kwargs = .ok (kw1, ws1))
    (hF : containsKey kwargs F = true) :
    (endsWithDash L = false → containsKey kwargs L = true →
      use_alias_run (pre ++ (F, L) :: post) kwargs =
        .error (.GMTInvalidInput (coexistMsg F L))) ∧
    (endsWithDash L = true →
      (splitOnSlash (rstripDash L)).any (fun a => containsKey kwargs a) = true →
      use_alias_run (pre ++ (F, L) :: post) kwargs =
        .error (.GMTInvalidInput (coexistMsg F (rstripDash L)))) := by
  have hcons : runAliases ((F, L) :: post) kw1 =
      match aliasStep kw1 (F, L) with
      | .error e => .error e
      | .ok (kwa, ws) =>
        match runAliases post kwa with
        | .error e => .error e
        | .ok (kwc, ws') => .ok (kwc, ws ++ ws') := rfl
  constructor
  · intro hdash hL
    have hFmem : F ∈ aliasNames (F, L) := by
      simp [aliasNames, hdash]
    have hLmem : L ∈ aliasNames (F, L) := by
      simp [aliasNames, hdash]
    have hF1 : containsKey kw1 F = true := by
      rw [runAliases_preserves_untouched pre kwargs kw1 ws1 F
        (fun p hp => hdisj p hp F hFmem) hpreok]
      exact hF
    have hL1 : containsKey kw1 L = true := by
      rw [runAliases_preserves_untouched pre kwargs kw1 ws1 L
        (fun p hp => hdisj p hp L hLmem) hpreok]
      exact hL
    have hstep : aliasStep kw1 (F, L) =
        .error (.GMTInvalidInput (coexistMsg F L)) :=
      aliasStep_nondash_coexist kw1 F L hdash hL1 hF1
    unfold use_alias_run
    rw [runAliases_append, hpreok]
    dsimp only
    rw [hcons, hstep]
  · intro hdash hany
    have hFmem : F ∈ aliasNames (F, L) := by
      simp [aliasNames, hdash]
    have hF1 : containsKey kw1 F = true := by
      rw [runAliases_preserves_untouched pre kwargs kw1 ws1 F
        (fun p hp => hdisj p hp F hFmem) hpreok]
      exact hF
    rcases List.any_eq_true.mp hany with ⟨a, hamem, hacont⟩
    have haNames : a ∈ aliasNames (F, L) := by
      simp [aliasNames, hdash, hamem]
    have ha1 : containsKey kw1 a = true := by
      rw [runAliases_preserves_untouched pre kwargs kw1 ws1 a
        (fun p hp => hdisj p hp a haNames) hpreok]
      exact hacont
    have hany1 : (splitOnSlash (rstripDash L)).any
        (fun x => containsKey kw1 x) = true :=
      List.any_eq_true.mpr ⟨a, hamem, ha1⟩
    have hstep : aliasStep kw1 (F, L) =
        .error (.GMTInvalidInput (coexistMsg F (rstripDash L))) :=
      aliasStep_dash_coexist kw1 F L hdash hany1 hF1
    unfold use_alias_run
    rw [runAliases_append, hpreok]
    dsimp only
    rw [hcons, hstep]

/-- Witness for C9, at the `use_alias` doctest's own case
(decorators.py lines 536-542): `my_module(region="bla", projection="meh",
J="bla")` with the table `R="region", J="projection"`. -/
theorem use_alias_short_long_coexist_raises_witness :
    use_alias_run [("R", "region"), ("J", "projection")]
        [("region", PyVal.str "bla"), ("projection", PyVal.str "meh"),
          ("J", PyVal.str "bla")] =
      .error (.GMTInvalidInput (coexistMsg "J" "projection")) :=
  (use_alias_short_long_coexist_raises [("R", "region")] [] "J" "projection"
    [("region", PyVal.str "bla"), ("projection", PyVal.str "meh"),
      ("J", PyVal.str "bla")]
    [("projection", PyVal.str "meh"), ("J", PyVal.str "bla"),
      ("R", PyVal.str "bla")]
    [] (by decide) (by decide) (by decide)).1 (by decide) (by decide)

/-- The removed parameter names rejected by `new_module`
(decorators.py lines 596-618). -/
def removedNames : List String :=
  ["U", "timestamp", "X", "xshift", "Y", "yshift"]

/-- An alias pair that cannot smuggle a removed parameter name out of the
kwargs dictionary before the removed-parameter checks run: a dash pair must
not use a removed name as its short flag (its rewrite erases the short
flag), and a plain pair whose long name is removed must also have a removed
short flag (its rewrite erases the long name but introduces the short one).
Every alias table in this repository satisfies this. -/
def safePair (p : String × String) : Bool :=
  if endsWithDash p.2 then !(removedNames.contains p.1)
  else !(removedNames.contains p.2) || removedNames.contains p.1

/-- The kwargs dictionary mentions one of the removed parameter names. -/
def hasRemoved (kw : Kwargs) : Bool :=
  removedNames.any (fun n => containsKey kw n)

theorem hasRemoved_of (kw : Kwargs) (n : String) (hnm : n ∈ removedNames)
    (hc : containsKey kw n = true) : hasRemoved kw = true :=
  List.any_eq_true.mpr ⟨n, hnm, hc⟩

theorem aliasStep_error_invalid (kw : Kwargs) (p : String × String)
    (e : PyExc) (h : aliasStep kw p = .error e) :
    ∃ m, e = .GMTInvalidInput m := by
  unfold aliasStep at h
  dsimp only at h
  split at h
  · split at h
    · exact ⟨_, (Except.error.inj h).symm⟩
    · split at h
      · split at h
        · exact ⟨_, (Except.error.inj h).symm⟩
        · split at h <;> exact absurd h (by simp)
      · exact absurd h (by simp)
  · split at h
    · exact ⟨_, (Except.error.inj h).symm⟩
    · split at h
      · split at h <;> exact absurd h (by simp)
      · split at h <;> exact absurd h (by simp)

theorem contains_eq_true_of_mem {l : List String} {a : String}
    (h : a ∈ l) : l.contains a = true := by
  induction l with
  | nil => cases h
  | cons x xs ih =>
    show (match a == x with
      | true => true
      | false => List.elem a xs) = true
    cases hax : a == x
    · dsimp only
      rcases List.mem_cons.mp h with rfl | h'
      · simp at hax
      · exact ih h'
    · rfl

theorem mem_of_contains_eq_true {l : List String} {a : String}
    (h : l.contains a = true) : a ∈ l := by
  induction l with
  | nil => exact absurd h (by simp [List.contains, List.elem])
  | cons x xs ih =>
    have h' : (match a == x with
        | true => true
        | false => List.elem a xs) = true := h
    cases hax : a == x
    · rw [hax] at h'
      dsimp only at h'
      exact List.mem_cons.mpr (Or.inr (ih h'))
    · exact List.mem_cons.mpr (Or.inl (by simpa using hax))

theorem aliasStep_preserves_removed (kw kw' : Kwargs) (ws : List String)
    (p : String × String) (hsafe : safePair p = true)
    (h : aliasStep kw p = .ok (kw', ws)) (hrem : hasRemoved kw = true) :
    hasRemoved kw' = true := by
  rcases List.any_eq_true.mp hrem with ⟨n, hnm, hcn⟩
  unfold aliasStep at h
  dsimp only at h
  unfold safePair at hsafe
  split at h
  · -- trailing-dash pair: the rewrite erases the short flag, which is not
    -- a removed name
    next hd =>
    rw [if_pos hd] at hsafe
    have hshort : removedNames.contains p.1 = false := by
      cases hc : removedNames.contains p.1
      · rfl
      · rw [hc] at hsafe
        exact absurd hsafe (by simp)
    have hne : n ≠ p.1 := by
      intro heq
      rw [contains_eq_true_of_mem (heq ▸ hnm)] at hshort
      exact Bool.noConfusion hshort
    split at h
    · exact absurd h (by simp)
    · split at h
      · split at h
        · exact absurd h (by simp)
        · split at h
          · next v hv =>
            have hkw' : kw' = setKey (eraseKey kw p.1) (rstripDash p.2) v :=
              ((Prod.mk.inj (Except.ok.inj h)).1).symm
            apply hasRemoved_of kw' n hnm
            rw [hkw']
            apply containsKey_setKey_mono
            rw [containsKey_eraseKey_ne kw p.1 n hne]
            exact hcn
          · next hv =>
            have hkw' : kw' = kw := ((Prod.mk.inj (Except.ok.inj h)).1).symm
            rw [hkw']
            exact hasRemoved_of kw n hnm hcn
      · have hkw' : kw' = kw := ((Prod.mk.inj (Except.ok.inj h)).1).symm
        rw [hkw']
        exact hasRemoved_of kw n hnm hcn
  · -- plain pair: the rewrite erases the long name but introduces the
    -- short flag, which by safety is itself removed when the long name is
    next hd =>
    rw [if_neg hd] at hsafe
    split at h
    · exact absurd h (by simp)
    · split at h
      · next hlong =>
        split at h
        · next v hv =>
          have hkw' : kw' = setKey (eraseKey kw p.2) p.1 v :=
            ((Prod.mk.inj (Except.ok.inj h)).1).symm
          by_cases hnl : n = p.2
          · have h2 : removedNames.contains p.2 = true :=
              contains_eq_true_of_mem (hnl ▸ hnm)
            have h1 : removedNames.contains p.1 = true := by
              rw [h2] at hsafe
              simpa using hsafe
            apply hasRemoved_of kw' p.1 (mem_of_contains_eq_true h1)
            rw [hkw']
            exact containsKey_setKey_self _ _ _
          · apply hasRemoved_of kw' n hnm
            rw [hkw']
            apply containsKey_setKey_mono
            rw [containsKey_eraseKey_ne kw p.2 n hnl]
            exact hcn
        · next hv =>
          have hkw' : kw' = kw := ((Prod.mk.inj (Except.ok.inj h)).1).symm
          rw [hkw']
          exact hasRemoved_of kw n hnm hcn
      · split at h
        · have hkw' : kw' = kw := ((Prod.mk.inj (Except.ok.inj h)).1).symm
          rw [hkw']
          exact hasRemoved_of kw n hnm hcn
        · have hkw' : kw' = kw := ((Prod.mk.inj (Except.ok.inj h)).1).symm
          rw [hkw']
          exact hasRemoved_of kw n hnm hcn

theorem removedParamsCheck_error_of_hasRemoved (kw : Kwargs)
    (h : hasRemoved kw = true) :
    ∃ m, removedParamsCheck kw = .error (.GMTInvalidInput m) := by
  unfold removedParamsCheck
  by_cases h1 : (containsKey kw "U" || containsKey kw "timestamp") = true
  · rw [if_pos h1]
    exact ⟨_, rfl⟩
  · rw [if_neg h1]
    by_cases h2 : (containsKey kw "X" || containsKey kw "xshift") = true
    · rw [if_pos h2]
      exact ⟨_, rfl⟩
    · rw [if_neg h2]
      have h3 : (containsKey kw "Y" || containsKey kw "yshift") = true := by
        simp only [Bool.or_eq_true] at h1 h2
        push_neg at h1 h2
        simp only [Bool.not_eq_true] at h1 h2
        simp only [hasRemoved, removedNames, List.any_cons, List.any_nil,
          Bool.or_eq_true, Bool.or_false] at h
        rcases h with h | h | h | h | h | h
        · rw [h] at h1; simp at h1
        · rw [h] at h1; simp at h1
        · rw [h] at h2; simp at h2
        · rw [h] at h2; simp at h2
        · simp [h]
        · simp [h]
      rw [if_pos h3]
      exact ⟨_, rfl⟩

/-- **C8.**  Every function decorated with `use_alias` raises
`GMTInvalidInput` whenever the call supplies any of the removed parameters
`U`/`timestamp`, `X`/`xshift`, `Y`/`yshift`, and the wrapped module
function is not invoked — for every alias table whose pairs cannot rewrite
a removed name away (which all tables of this repository, including
`BasePlotting.coast`'s, satisfy). -/
theorem use_alias_removed_params_raise (table : List (String × String))
    (kwargs : Kwargs)
    (hsafe : ∀ p ∈ table, safePair p = true)
    (hrem : hasRemoved kwargs = true) :
    ∃ msg, use_alias_run table kwargs = .error (.GMTInvalidInput msg) := by
  induction table generalizing kwargs with
  | nil =>
    rcases removedParamsCheck_error_of_hasRemoved kwargs hrem with ⟨m, hm⟩
    refine ⟨m, ?_⟩
    unfold use_alias_run runAliases
    dsimp only
    rw [hm]
  | cons p rest ih =>
    have hcons : runAliases (p :: rest) kwargs =
        match aliasStep kwargs p with
        | .error e => .error e
        | .ok (kw1, ws) =>
          match runAliases rest kw1 with
          | .error e => .error e
          | .ok (kw2, ws') => .ok (kw2, ws ++ ws') := rfl
    cases hstep : aliasStep kwargs p with
    | error e =>
      rcases aliasStep_error_invalid kwargs p e hstep with ⟨m, rfl⟩
      refine ⟨m, ?_⟩
      unfold use_alias_run
      rw [hcons, hstep]
    | ok pr =>
      obtain ⟨kw1, ws⟩ := pr
      have hrem1 := aliasStep_preserves_removed kwargs kw1 ws p
        (hsafe p (by simp)) hstep hrem
      rcases ih kw1 (fun q hq => hsafe q (by simp [hq])) hrem1 with ⟨m, hm⟩
      refine ⟨m, ?_⟩
      unfold use_alias_run at hm ⊢
      rw [hcons, hstep]
      dsimp only
      cases hr : runAliases rest kw1 with
      | error e =>
        rw [hr] at hm
        dsimp only at hm ⊢
        exact hm
      | ok pr2 =>
        obtain ⟨kw2, ws2⟩ := pr2
        rw [hr] at hm
        dsimp only at hm ⊢
        cases hrc : removedParamsCheck kw2 with
        | error e2 =>
          rw [hrc] at hm
          dsimp only at hm ⊢
          exact hm
        | ok u =>
          rw [hrc] at hm
          dsimp only at hm
          exact absurd hm (by simp)

/-- The alias table of `BasePlotting.coast` (base_plotting.py lines
59-79): it still registers `U="timestamp"`, `X="xshift"` and
`Y="yshift"`. -/
def coastAliases : List (String × String) :=
  [("R", "region"), ("J", "projection"), ("A", "area_thresh"),
    ("C", "lakes"), ("B", "frame"), ("D", "resolution"), ("E", "dcw"),
    ("I", "rivers"), ("L", "map_scale"), ("N", "borders"),
    ("W", "shorelines"), ("G", "land"), ("S", "water"), ("U", "timestamp"),
    ("V", "verbose"), ("X", "xshift"), ("Y", "yshift"),
    ("p", "perspective"), ("t", "transparency")]

/-- Witness for C8: `coast(timestamp=...)` through coast's own alias
table — the listed alias can never be used successfully. -/
theorem use_alias_removed_params_raise_witness :
    ∃ msg, use_alias_run coastAliases
        [("timestamp", PyVal.str "2000-01-01")] =
      .error (.GMTInvalidInput msg) :=
  use_alias_removed_params_raise coastAliases
    [("timestamp", PyVal.str "2000-01-01")] (by decide) (by decide)

end PyGMT
